import Mathlib

/-!
Shallow embedding of the temporal-consistency and referential-generation
engine of the ScalarAsg data generator (src/src/generators/*.py), together
with proofs and refutations of its specified invariants.

Modelling conventions, used uniformly below:

* Timestamps (`datetime`) are integers counting seconds; dates (`date`) are
  integers counting days.  `timedelta(days=d)` is `d * 86400`,
  `timedelta(hours=h)` is `h * 3600`, `timedelta(minutes=m)` is `m * 60`.
  Python's `datetime.date()` is `dateOf`, `datetime.combine(d, time.min)` is
  `d * 86400`, `.replace(hour=h, minute=m, second=0, microsecond=0)` is
  `replaceTime`, and `(a - b).days` is `daysBetween a b` (Python timedelta
  normalisation floors, which is `Int` floor division).
* The global wall clock (`datetime.utcnow()`) is modelled as an explicit
  parameter `now`, one instant per generator run (spec section 9 notes the
  source re-reads a mutable clock; nothing below depends on the drift).
* Every call to the `random` module is modelled by an oracle-supplied
  natural number (or Bool / list of naturals) coerced into the exact
  support of the call: `random.randint(lo, hi)` becomes `randint lo hi r`,
  `random.random() < p` becomes an oracle Bool, `random.choice(l)` becomes
  `listChoice l d r`, `random.choices([x1..xk], weights)` becomes a
  coercion of a draw into `{x1..xk}`, and `random.sample(l, n)` becomes
  `sampleDistinct l n rs` (distinct positions of `l`).  Quantifying over
  the oracle covers every outcome the Python random source can produce.
* Cosmetic text generation (task names, descriptions, uuid identifiers) is
  oracle-supplied verbatim, since its content never feeds back into the
  temporal or referential logic.
-/

/-- Model of `random.randint(lo, hi)`: the draw `r` coerced into `[lo, hi]`. -/
def randint (lo hi : Int) (r : Nat) : Int :=
  lo + ((r % (hi - lo + 1).toNat : Nat) : Int)

/-- Model of `random.choice(l)` (uniform element pick): draw coerced to a
valid position; `d` is returned for an empty list, on which the source
would raise `IndexError`. -/
def listChoice {α : Type} (l : List α) (d : α) (r : Nat) : α :=
  l.getD (r % l.length) d

/-- Model of `random.sample(l, n)` (distinct positions without
replacement): the oracle's position draws, coerced into range,
de-duplicated, truncated to `n`.  Every output of `random.sample` is the
image of some oracle; outputs shorter than `n` are a harmless
over-approximation since no claim relies on the exact count. -/
def sampleDistinct {α : Type} (l : List α) (n : Nat) (rs : List Nat) (d : α) : List α :=
  (((rs.map (fun x => x % l.length)).dedup).take n).map (fun i => l.getD i d)

/-- Contiguous-sublist test on character lists, by structural recursion
(kernel-reducible, unlike `String.splitOn`). -/
def subList (needle : List Char) : List Char → Bool
  | [] => needle.isEmpty
  | c :: t => needle.isPrefixOf (c :: t) || subList needle t

/-- Python `needle in hay` on strings (substring containment). -/
def pyIn (needle hay : String) : Bool :=
  subList needle.data hay.data

/-- Python `str.lower()` (ASCII lowering suffices for the generator's
string constants), by structural recursion over the character data. -/
def lowerStr (s : String) : String :=
  ⟨s.data.map Char.toLower⟩

/-- Stable insertion of `a` into a sorted list: `a` is placed before the
first element it compares `le` to, so earlier-listed elements win ties. -/
def insertSorted {α : Type} (le : α → α → Bool) (a : α) : List α → List α
  | [] => [a]
  | b :: t => if le a b then a :: b :: t else b :: insertSorted le a t

/-- Stable sort by a boolean comparison, by structural recursion
(kernel-reducible, unlike `List.mergeSort`).  For a total transitive
comparison a stable sort is unique, so this agrees with Python's
`list.sort`. -/
def sortByLe {α : Type} (le : α → α → Bool) : List α → List α
  | [] => []
  | x :: xs => insertSorted le x (sortByLe le xs)

/-- Python `datetime.date()` as a day number (floor of seconds / 86400). -/
def dateOf (t : Int) : Int := t / 86400

/-- Python `.replace(hour=h, minute=m, second=0, microsecond=0)`. -/
def replaceTime (t hour minute : Int) : Int :=
  dateOf t * 86400 + hour * 3600 + minute * 60

/-- Python `(a - b).days` (timedelta normalisation floors the day count). -/
def daysBetween (a b : Int) : Int := (a - b) / 86400

/-! ## Entity records (src/src/models), restricted to the fields the
generators read or write.  Optional fields are `Option`; string ids stay
strings (uuid4 content is oracle-supplied). -/

namespace Models

structure User where
  user_id : String
  department : String
  created_at : Int
  deriving DecidableEq

structure Team where
  team_id : String
  team_type : String
  created_at : Int
  deriving DecidableEq

structure TeamMembership where
  membership_id : String
  team_id : String
  user_id : String
  role : String
  joined_at : Int
  deriving DecidableEq

structure Project where
  project_id : String
  organization_id : String
  team_id : String
  owner_id : String
  project_type : String
  status : String
  start_date : Int
  due_date : Int
  completed_at : Option Int
  created_at : Int
  deriving DecidableEq

structure Section where
  section_id : String
  project_id : String
  name : String
  position : Nat
  created_at : Int
  deriving DecidableEq

structure Tag where
  tag_id : String
  organization_id : String
  name : String
  deriving DecidableEq

structure Task where
  task_id : String
  project_id : String
  section_id : String
  assignee_id : String
  created_by : String
  name : String
  priority : String
  due_date : Option Int
  start_date : Option Int
  completed : Bool
  completed_at : Option Int
  created_at : Int
  deriving DecidableEq

structure TaskDependency where
  dependency_id : String
  dependent_task_id : String
  dependency_task_id : String
  created_at : Int
  deriving DecidableEq

structure TaskTag where
  task_tag_id : String
  task_id : String
  tag_id : String
  created_at : Int
  deriving DecidableEq

end Models

open Models

/-- Placeholder returned by total models of Python operations that would
raise on out-of-range access; never reachable under the guards proved. -/
def junkTask : Task :=
  ⟨"", "", "", "", "", "", "", none, none, false, none, 0⟩

def junkUser : User := ⟨"", "", 0⟩

def junkSection : Section := ⟨"", "", "", 0, 0⟩

def junkTag : Tag := ⟨"", "", ""⟩

namespace TaskGen

/-!  Embedding of `src/src/generators/tasks.py` (`TaskGenerator`). -/

/-- Benchmark parameters read from `benchmarks.json` that feed the task
generator's arithmetic (`_load_research_data`). -/
structure Benchmarks where
  tasksPerWeekLo : Nat
  tasksPerWeekHi : Nat
  durLo : Int
  durHi : Int

/-- Embedding of `TaskGenerator._calculate_total_tasks`:
`int(num_users * ((lo + hi) / 2) * 26)`.  Since `26` is even the float
expression is an exact integer for realistic sizes, equal to this `Nat`
division. -/
def calculateTotalTasks (bm : Benchmarks) (numUsers : Nat) : Nat :=
  numUsers * (bm.tasksPerWeekLo + bm.tasksPerWeekHi) * 26 / 2

/-- Embedding of `TaskGenerator._sample_priority`: a weighted categorical
draw over `high`/`medium`/`low`; the oracle draw picks the outcome. -/
def samplePriority (r : Nat) : String :=
  listChoice ["high", "medium", "low"] "medium" r

/-- Embedding of `TaskGenerator._sample_status`.  The priority- and
age-conditioned completion rate only reweights the Bernoulli draw, which
the oracle Bool `completedDraw` models; an incomplete task is then
`in_progress` or `not_started` by a second weighted draw. -/
def sampleStatus (completedDraw inProgressDraw : Bool) : String :=
  if completedDraw then "completed"
  else if inProgressDraw then "in_progress" else "not_started"

/-- Embedding of `TaskGenerator._sample_task_duration`:
`max(1, int(random.triangular(lo, hi, mode)))`; the truncated triangular
draw lands in `[lo, hi]`, modelled by a coerced draw. -/
def sampleTaskDuration (bm : Benchmarks) (r : Nat) : Int :=
  max 1 (randint bm.durLo bm.durHi r)

/-- Embedding of `TaskGenerator._sample_created_at` (tasks.py lines
214-263), including the `ABSOLUTE FINAL CONSTRAINTS` clamping order:
lower clamp to `earliest` first, then the push-back below `now`. -/
def sampleCreatedAt (project_created_at assignee_created_at now : Int)
    (rAdj rOff rHour rMin rPush : Nat) : Int :=
  let earliest := max project_created_at assignee_created_at
  let earliest := if earliest > now then now - randint 1 30 rAdj * 86400 else earliest
  let days_available := daysBetween now earliest
  let days_offset := if days_available > 0 then randint 0 days_available rOff else 0
  let created_at := earliest + days_offset * 86400
  let created_at := replaceTime created_at (randint 8 20 rHour) (randint 0 59 rMin)
  let created_at := if created_at < earliest then earliest else created_at
  let created_at := if created_at > now then now - randint 1 48 rPush * 3600 else created_at
  let created_at := if created_at > now then now - 3600 else created_at
  created_at

/-- Embedding of `TaskGenerator._sample_due_date`: the priority-dependent
Bernoulli is the oracle Bool; when present the due date is
`(created_at + duration days).date()`. -/
def sampleDueDate (created_at duration_days : Int) (hasDue : Bool) : Option Int :=
  if hasDue then some (dateOf (created_at + duration_days * 86400)) else none

/-- Embedding of `TaskGenerator._sample_completed_at` (tasks.py lines
288-365): on-time/overdue sampling, future clamp, business-hour
replacement, and the chain of final checks, in source order.
`int(total_seconds * 0.5)` is `/ 2` (the operand is nonnegative there). -/
def sampleCompletedAt (created_at : Int) (due_date : Option Int) (status : String)
    (now : Int) (onTime : Bool)
    (r1 r2 r3 r4 r5 rHour rMin r7 r8 : Nat) : Option Int :=
  if status ≠ "completed" then none else
  let completed_at :=
    match due_date with
    | some due =>
        let due_dt := due * 86400
        if onTime then
          let days_available := daysBetween due_dt created_at
          let offset := if days_available > 0 then randint 0 days_available r1 else 0
          created_at + offset * 86400
        else
          due_dt + randint 1 14 r2 * 86400
    | none => created_at + randint 1 30 r3 * 86400
  let completed_at :=
    if completed_at > now then
      let days_available := daysBetween now created_at
      if days_available > 0 then created_at + randint 0 days_available r4 * 86400
      else now - randint 1 48 r5 * 3600
    else completed_at
  let completed_at := replaceTime completed_at (randint 8 20 rHour) (randint 0 59 rMin)
  let completed_at :=
    if completed_at < created_at then created_at + randint 1 24 r7 * 3600 else completed_at
  let completed_at :=
    if completed_at > now then
      if now > created_at then
        let total_seconds := now - created_at
        if total_seconds > 3600 then created_at + randint 3600 total_seconds r8
        else created_at + total_seconds / 2
      else now
    else completed_at
  let completed_at := if completed_at < created_at then created_at + 1 else completed_at
  let completed_at := if completed_at > now then now else completed_at
  some completed_at

/-- Random draws consumed by `TaskGenerator.generate`, indexed by the
position of the project in the active-project list and the task index
within the project. -/
structure Oracle where
  taskId : Nat → Nat → String
  rPrio : Nat → Nat → Nat
  rDur : Nat → Nat → Nat
  rAssignee : Nat → Nat → Nat
  rAdj : Nat → Nat → Nat
  rOff : Nat → Nat → Nat
  rHour : Nat → Nat → Nat
  rMin : Nat → Nat → Nat
  rPush : Nat → Nat → Nat
  completedDraw : Nat → Nat → Bool
  inProgressDraw : Nat → Nat → Bool
  hasDue : Nat → Nat → Bool
  onTime : Nat → Nat → Bool
  c1 : Nat → Nat → Nat
  c2 : Nat → Nat → Nat
  c3 : Nat → Nat → Nat
  c4 : Nat → Nat → Nat
  c5 : Nat → Nat → Nat
  cHour : Nat → Nat → Nat
  cMin : Nat → Nat → Nat
  c7 : Nat → Nat → Nat
  c8 : Nat → Nat → Nat
  taskName : Nat → Nat → String
  rCreator : Nat → Nat → Nat
  rStart : Nat → Nat → Nat

/-- Section assignment block of `TaskGenerator.generate` (lines 448-461):
`next(...)` with a default is `List.find?` plus `getD`; `'done' in
s.name.lower()` is `pyIn`. -/
def pickSection (status : String) (project_sections : List Section) : Section :=
  if status = "completed" then
    (project_sections.find? (fun s => pyIn "done" (lowerStr s.name))).getD
      (project_sections.getLastD junkSection)
  else if status = "in_progress" then
    (project_sections.find? (fun s => pyIn "progress" (lowerStr s.name))).getD
      (project_sections.getD (project_sections.length / 2) junkSection)
  else
    (project_sections.find? (fun s =>
        pyIn "todo" (lowerStr s.name) || pyIn "backlog" (lowerStr s.name) ||
          pyIn "new" (lowerStr s.name))).getD
      (project_sections.headD junkSection)

/-- Body of the inner `for _ in range(tasks_per_project)` loop of
`TaskGenerator.generate` (lines 421-490), producing one `Task`. -/
def mkTask (o : Oracle) (bm : Benchmarks) (now : Int) (team_users : List User)
    (project : Project) (project_sections : List Section) (k j : Nat) : Task :=
  let priority := samplePriority (o.rPrio k j)
  let duration_days := sampleTaskDuration bm (o.rDur k j)
  let assignee := listChoice team_users junkUser (o.rAssignee k j)
  let created_at := sampleCreatedAt project.created_at assignee.created_at now
    (o.rAdj k j) (o.rOff k j) (o.rHour k j) (o.rMin k j) (o.rPush k j)
  let age_days := daysBetween now created_at
  let status := sampleStatus (o.completedDraw k j) (o.inProgressDraw k j)
  let due_date := sampleDueDate created_at duration_days (o.hasDue k j)
  let completed_at := sampleCompletedAt created_at due_date status now (o.onTime k j)
    (o.c1 k j) (o.c2 k j) (o.c3 k j) (o.c4 k j) (o.c5 k j) (o.cHour k j) (o.cMin k j)
    (o.c7 k j) (o.c8 k j)
  let sec := pickSection status project_sections
  let start_date :=
    if status = "not_started" then none
    else some (dateOf (created_at + randint 0 (min 3 age_days) (o.rStart k j) * 86400))
  { task_id := o.taskId k j
    project_id := project.project_id
    section_id := sec.section_id
    assignee_id := assignee.user_id
    created_by := (listChoice team_users junkUser (o.rCreator k j)).user_id
    name := o.taskName k j
    priority := priority
    due_date := due_date
    start_date := start_date
    completed := status == "completed"
    completed_at := completed_at
    created_at := created_at }

/-- Active-project selection of `TaskGenerator.generate` (lines 399-402):
tasks are created for `active`/`on_hold` projects, falling back to all
projects when no such project exists. -/
def activeProjects (projects : List Project) : List Project :=
  let active := projects.filter (fun p => p.status == "active" || p.status == "on_hold")
  if active = [] then projects else active

/-- Per-project section list (`sections_by_project`, lines 388-390). -/
def projectSections (sections : List Section) (p : Project) : List Section :=
  sections.filter (fun s => s.project_id == p.project_id)

/-- Assignee pool of `TaskGenerator.generate` (lines 393-418): the
department map is keyed by department but looked up with the owner id of
the last project sharing the id (`project_dict` keeps the last), so the
fallback to all users is the realistic path. -/
def teamUsers (projects : List Project) (users : List User) (p : Project) : List User :=
  let owner_source := (projects.filter (fun q => q.project_id == p.project_id)).getLastD p
  let tu := users.filter (fun u => u.department == owner_source.owner_id)
  if tu = [] then users else tu

/-- Embedding of `TaskGenerator.generate` (tasks.py lines 368-498).
`tasks_per_project = total // len(active)` uses `Nat` division (the source
raises `ZeroDivisionError` on an empty project list; the model then
produces no tasks, which no claim below touches). -/
def generate (bm : Benchmarks) (o : Oracle) (now : Int)
    (projects : List Project) (sections : List Section) (users : List User) : List Task :=
  let total_tasks := calculateTotalTasks bm users.length
  let tasks_per_project := total_tasks / (activeProjects projects).length
  (activeProjects projects).enum.flatMap (fun kp =>
    if projectSections sections kp.2 = [] then []
    else
      (List.range tasks_per_project).map (fun j =>
        mkTask o bm now (teamUsers projects users kp.2) kp.2
          (projectSections sections kp.2) kp.1 j))

end TaskGen

namespace DepGen

/-!  Embedding of `src/src/generators/dependencies.py`
(`DependencyGenerator.generate`, lines 46-118). -/

/-- Random draws for the dependency generator, indexed by the project
group position and the dependent task's position in the sorted group;
`sampleIdx` models `random.sample` as position draws into the prefix. -/
structure Oracle where
  shouldDep : Nat → Nat → Bool
  numDeps : Nat → Nat → Nat
  sampleIdx : Nat → Nat → List Nat
  depId : Nat → Nat → Nat → String
  createdOff : Nat → Nat → Nat → Nat

/-- Generator state: the dependency list built so far and the
`existing_deps` seen-set of `(dependent_task_id, dependency_task_id)`
keys, modelled as a list. -/
abbrev DepState := List TaskDependency × List (String × String)

/-- Iteration order of `tasks_by_project` (a `defaultdict` keyed in
first-occurrence order of `task.project_id`). -/
def groupKeys (tasks : List Task) : List String :=
  tasks.foldl (fun acc t => if t.project_id ∈ acc then acc else acc ++ [t.project_id]) []

/-- One project's task list, sorted by `created_at`
(`project_tasks.sort(key=lambda t: t.created_at)`; Python sort and
`mergeSort` are both stable). -/
def sortedGroup (tasks : List Task) (pid : String) : List Task :=
  sortByLe (fun a b => decide (a.created_at ≤ b.created_at))
    (tasks.filter (fun t => t.project_id == pid))

/-- Inner `for blocker_task in blocker_tasks` loop (lines 97-113): skip
keys already in the seen-set, otherwise append the record and the key. -/
def mkRecs (o : Oracle) (g i : Nat) (dep : Task) (potential : List Task) :
    List Nat → Nat → DepState → DepState
  | [], _, st => st
  | idx :: rest, m, st =>
    let blocker := potential.getD idx junkTask
    let key := (dep.task_id, blocker.task_id)
    if key ∈ st.2 then mkRecs o g i dep potential rest (m + 1) st
    else
      mkRecs o g i dep potential rest (m + 1)
        (st.1 ++ [{ dependency_id := o.depId g i m
                    dependent_task_id := dep.task_id
                    dependency_task_id := blocker.task_id
                    created_at := dep.created_at + randint 1 24 (o.createdOff g i m) * 3600 }],
         st.2 ++ [key])

/-- Middle `for i, dependent_task in enumerate(project_tasks)` loop
(lines 77-113): Bernoulli gate, prefix of already-created tasks as
potential blockers, `min(sampled, len(prefix))` count, distinct sampled
positions. -/
def genGroupAux (o : Oracle) (g : Nat) (sorted : List Task) :
    List Nat → DepState → DepState
  | [], st => st
  | i :: rest, st =>
    if ¬ o.shouldDep g i then genGroupAux o g sorted rest st
    else
      let potential := sorted.take i
      if potential = [] then genGroupAux o g sorted rest st
      else
        let dep := sorted.getD i junkTask
        let num := min (1 + o.numDeps g i % 3) potential.length
        let idxs := ((o.sampleIdx g i).map (fun x => x % potential.length)).dedup.take num
        genGroupAux o g sorted rest (mkRecs o g i dep potential idxs 0 st)

/-- Outer `for project_id, project_tasks in tasks_by_project.items()` loop
(lines 73-113), skipping groups with fewer than two tasks. -/
def genAll (tasks : List Task) (o : Oracle) : List (Nat × String) → DepState → DepState
  | [], st => st
  | (g, pid) :: rest, st =>
    let sorted := sortedGroup tasks pid
    genAll tasks o rest
      (if sorted.length < 2 then st else genGroupAux o g sorted (List.range sorted.length) st)

/-- Embedding of `DependencyGenerator.generate`. -/
def generate (tasks : List Task) (o : Oracle) : List TaskDependency :=
  (genAll tasks o (groupKeys tasks).enum ([], [])).1

/-- Dependency key used by the seen-set and the uniqueness/acyclicity
claims. -/
def depKey (r : TaskDependency) : String × String :=
  (r.dependent_task_id, r.dependency_task_id)

end DepGen

namespace ProjectGen

/-!  Embedding of `src/src/generators/projects.py` (`ProjectGenerator`),
restricted to the date samplers the claims cite. -/

/-- Embedding of `ProjectGenerator._sample_project_dates` (lines 266-291):
start date distributed over the organisation history after
`max(org.created_at, team.created_at)`, due date start plus a
template-ranged duration. -/
def sampleProjectDates (org_created team_created now durLo durHi : Int)
    (rStart rDur : Nat) : Int × Int :=
  let earliest := max org_created team_created
  let days_since := daysBetween now earliest
  let start_offset := randint 0 (max 1 days_since) rStart
  let start_date := dateOf (earliest + start_offset * 86400)
  let duration := randint durLo durHi rDur
  (start_date, start_date + duration)

/-- Embedding of `ProjectGenerator._sample_completed_at` (lines 293-350).
`int(x * 0.5)` truncates toward zero, hence `Int.tdiv` on the possibly
negative overrun base; the on-time branch divides a positive day count,
where floor and truncation agree. -/
def sampleCompletedAt (start_date due_date : Int) (status : String) (now : Int)
    (onTime : Bool) (r1 r2 r3 r4 rH rFixH rNow rNowH : Nat) : Option Int :=
  if ¬ (status = "completed" ∨ status = "archived") then none else
  let start_dt := start_date * 86400
  let due_dt := due_date * 86400
  let completed_at :=
    if onTime then
      let total_days := daysBetween due_dt start_dt
      if total_days > 0 then start_dt + randint (total_days / 2) total_days r1 * 86400
      else start_dt
    else
      due_dt + randint 1 (max 1 (Int.tdiv (daysBetween due_dt start_dt) 2)) r2 * 86400
  let completed_at :=
    if completed_at > now then
      let days_available := daysBetween now start_dt
      if days_available > 0 then start_dt + randint 0 days_available r3 * 86400
      else now - randint 1 48 r4 * 3600
    else completed_at
  let completed_at := replaceTime completed_at (randint 8 17 rH) 0
  let completed_at :=
    if dateOf completed_at < start_date then
      replaceTime (start_date * 86400) (randint 8 17 rFixH) 0
    else completed_at
  let completed_at :=
    if completed_at > now then
      replaceTime (now - randint 1 48 rNow * 3600) (randint 8 17 rNowH) 0
    else completed_at
  some completed_at

/-- Embedding of `ProjectGenerator._sample_created_at` (lines 352-364):
creation 0-14 days before `start_date`, at a business hour, with no clamp
against parent timestamps or `now`. -/
def sampleCreatedAt (start_date : Int) (rDays rHour : Nat) : Int :=
  let start_dt := start_date * 86400
  let created_at := start_dt - randint 0 14 rDays * 86400
  replaceTime created_at (randint 8 17 rHour) 0

end ProjectGen

namespace SectionGen

/-!  Embedding of `src/src/generators/sections.py` (`SectionGenerator`). -/

/-- Section-name templates of `_define_section_templates` /
`_get_sections_for_project`. -/
def sectionNamesFor (ptype : String) : List String :=
  if ptype = "sprint" then ["Backlog", "In Progress", "Review", "Done"]
  else if ptype = "ongoing" then ["To Do", "In Progress", "Done"]
  else if ptype = "bug_tracking" then ["New", "Triaged", "In Progress", "Fixed", "Closed"]
  else if ptype = "campaign" then ["Planning", "Creative", "Execution", "Analysis"]
  else if ptype = "roadmap" then ["Now", "Next", "Later", "Parking Lot"]
  else ["To Do", "In Progress", "Done"]

/-- Embedding of `SectionGenerator._sample_created_at` (lines 77-104). -/
def sampleCreatedAt (project_created_at now : Int) (rDays rHour rPush : Nat) : Int :=
  let created_at := project_created_at + randint 0 2 rDays * 86400
  let created_at := if created_at > now then project_created_at else created_at
  let created_at := replaceTime created_at (randint 8 17 rHour) 0
  let created_at := if created_at < project_created_at then project_created_at else created_at
  let created_at := if created_at > now then now - randint 1 24 rPush * 3600 else created_at
  created_at

/-- Random draws for the section generator, indexed by project position
and section position. -/
structure Oracle where
  sid : Nat → Nat → String
  rDays : Nat → Nat → Nat
  rHour : Nat → Nat → Nat
  rPush : Nat → Nat → Nat

/-- Per-project body of `SectionGenerator.generate` (lines 121-140): one
section per template name, with `enumerate` positions. -/
def blockFor (o : Oracle) (now : Int) (kp : Nat × Project) : List Section :=
  ((sectionNamesFor kp.2.project_type).enum).map (fun pn =>
    { section_id := o.sid kp.1 pn.1
      project_id := kp.2.project_id
      name := pn.2
      position := pn.1
      created_at := sampleCreatedAt kp.2.created_at now
        (o.rDays kp.1 pn.1) (o.rHour kp.1 pn.1) (o.rPush kp.1 pn.1) })

/-- Embedding of `SectionGenerator.generate` (lines 106-147). -/
def generate (o : Oracle) (now : Int) (projects : List Project) : List Section :=
  projects.enum.flatMap (blockFor o now)

end SectionGen

namespace CommentGen

/-!  Embedding of `src/src/generators/comments.py`
(`CommentGenerator._sample_created_at`, lines 129-181). -/

/-- End of the comment window (lines 140-148 of
`CommentGenerator._sample_created_at`): the task's completion or `now`,
bumped past the task creation, clamped to `now`. -/
def effectiveEnd (task_created_at : Int) (task_completed_at : Option Int) (now : Int)
    (rEndBump : Nat) : Int :=
  let end_time := task_completed_at.getD now
  let end_time :=
    if end_time ≤ task_created_at then task_created_at + randint 1 48 rEndBump * 3600
    else end_time
  if end_time > now then now else end_time

/-- Embedding of `CommentGenerator._sample_created_at`.  The float
pipeline `progress ∈ [0,1]`, `offset_seconds = int(time_span * progress)`
can produce exactly the integers `0 .. time_span`; the oracle draw modulo
`time_span + 1` models it. -/
def sampleCreatedAt (task_created_at : Int) (task_completed_at : Option Int) (now : Int)
    (rEndBump rEdge offsetDraw rClamp1 rClamp2 rClamp3 : Nat) : Int :=
  let end_time := effectiveEnd task_created_at task_completed_at now rEndBump
  let time_span := end_time - task_created_at
  if time_span ≤ 0 then task_created_at + randint 1 60 rEdge * 60
  else
    let offset_seconds := (offsetDraw : Int) % (time_span + 1)
    let created_at := task_created_at + offset_seconds
    let created_at :=
      if created_at < task_created_at then task_created_at + randint 1 24 rClamp1 * 3600
      else created_at
    let created_at :=
      if created_at > now then now - randint 1 24 rClamp2 * 3600 else created_at
    let created_at :=
      if created_at < task_created_at then task_created_at + randint 1 60 rClamp3 * 60
      else created_at
    created_at

end CommentGen

namespace TaskTagGen

/-!  Embedding of `src/src/generators/task_tags.py` (`TaskTagGenerator`).
The `Task` model has no `organization_id` attribute, so the source's
`getattr(task, 'organization_id', None)` is always `None`: every task is
offered the whole tag list and `_get_relevant_tags` receives
`tags[0].organization_id` as the organisation filter.  A `None` task
priority is modelled as the empty string (both are falsy and match no tag
name). -/

/-- Keyword-to-tag-name table of `_get_relevant_tags` (lines 84-100). -/
def kwTable : List (String × List String) :=
  [("bug", ["Bug", "Critical", "Urgent"]),
   ("fix", ["Bug", "Maintenance"]),
   ("design", ["Design", "UI/UX"]),
   ("feature", ["Feature", "Enhancement"]),
   ("doc", ["Documentation"]),
   ("test", ["Testing", "QA"]),
   ("deploy", ["Deployment", "Production"]),
   ("research", ["Research", "Investigation"]),
   ("review", ["Review", "Feedback"]),
   ("meeting", ["Meeting", "Discussion"]),
   ("planning", ["Planning", "Strategy"]),
   ("urgent", ["Urgent", "High Priority"]),
   ("blocked", ["Blocked"]),
   ("security", ["Security", "Critical"]),
   ("performance", ["Performance", "Optimization"])]

/-- Seen-set insertion of `_get_relevant_tags`: append the tag unless its
id was already collected. -/
def addUnseen (st : List Tag × List String) (t : Tag) : List Tag × List String :=
  if t.tag_id ∈ st.2 then st else (st.1 ++ [t], st.2 ++ [t.tag_id])

/-- Embedding of `TaskTagGenerator._get_relevant_tags` (lines 60-115):
priority-matching tags, then keyword-matching tags, de-duplicated by id
through the seen-set; a random 10-element sample as fallback. -/
def getRelevantTags (task : Task) (tags : List Tag) (orgId : String)
    (rSample : List Nat) : List Tag :=
  let org_tags := tags.filter (fun t => t.organization_id == orgId)
  if org_tags = [] then []
  else
    let st : List Tag × List String := ([], [])
    let st :=
      if task.priority ≠ "" then
        (org_tags.filter (fun t => pyIn (lowerStr task.priority) (lowerStr t.name))).foldl addUnseen st
      else st
    let task_name_lower := lowerStr task.name
    let st := kwTable.foldl (fun st kw =>
      if pyIn kw.1 task_name_lower then
        kw.2.foldl (fun st tag_name =>
          (org_tags.filter (fun t => pyIn (lowerStr tag_name) (lowerStr t.name))).foldl addUnseen st) st
      else st) st
    if st.1 = [] then sampleDistinct org_tags (min 10 org_tags.length) rSample junkTag
    else st.1

/-- Embedding of `TaskTagGenerator._sample_created_at` (lines 117-137). -/
def sampleCreatedAt (task_created_at now : Int) (daysDraw rHours : Nat) : Int :=
  let days_after := listChoice [0, 1, 2, 3, 7] 0 daysDraw
  let created_at := task_created_at + days_after * 86400
  let created_at := created_at + randint 0 12 rHours * 3600
  if created_at > now then task_created_at else created_at

/-- Random draws for the task-tag generator, indexed by task position and
selected-tag position. -/
structure Oracle where
  shouldTag : Nat → Bool
  sampleIdxs : Nat → List Nat
  numTags : Nat → Nat
  select : Nat → List Nat
  ttid : Nat → Nat → String
  rDays : Nat → Nat → Nat
  rHours : Nat → Nat → Nat

/-- Embedding of `TaskTagGenerator.generate` (lines 139-215). -/
def generate (tasks : List Task) (tags : List Tag) (o : Oracle) (now : Int) : List TaskTag :=
  match tags with
  | [] => []
  | t0 :: _ =>
    tasks.enum.flatMap (fun kt =>
      if ¬ o.shouldTag kt.1 then []
      else
        let relevant := getRelevantTags kt.2 tags t0.organization_id (o.sampleIdxs kt.1)
        if relevant = [] then []
        else
          let num := min (1 + o.numTags kt.1 % 5) relevant.length
          let selected := sampleDistinct relevant num (o.select kt.1) junkTag
          selected.enum.map (fun mg =>
            { task_tag_id := o.ttid kt.1 mg.1
              task_id := kt.2.task_id
              tag_id := mg.2.tag_id
              created_at := sampleCreatedAt kt.2.created_at now
                (o.rDays kt.1 mg.1) (o.rHours kt.1 mg.1) }))

end TaskTagGen

namespace TMGen

/-!  Embedding of `src/src/generators/team_membership.py`
(`TeamMembershipGenerator`).  The `user_team_assignments` dict is in
one-to-one correspondence with the membership list built so far (each
assignment appends exactly one membership), so the team count per user is
computed from the accumulated memberships. -/

/-- Distinct teams a user has been assigned so far
(`len(user_team_assignments[user_id])`). -/
def countTeams (ms : List TeamMembership) (uid : String) : Nat :=
  ((ms.filter (fun m => m.user_id == uid)).map (fun m => m.team_id)).dedup.length

/-- Embedding of `TeamMembershipGenerator._sample_joined_at`
(lines 71-102). -/
def sampleJoinedAt (user_created team_created now : Int) (rDelay rHour : Nat) : Int :=
  let earliest := max user_created team_created
  let earliest := if earliest > now then now - 86400 else earliest
  let max_days := daysBetween now earliest
  let joined_at := earliest + randint 0 (min 30 max_days) rDelay * 86400
  let joined_at := replaceTime joined_at (randint 8 17 rHour) 0
  let joined_at := if joined_at < earliest then earliest else joined_at
  let joined_at := if joined_at > now then now else joined_at
  joined_at

/-- Random draws for the team-membership generator, indexed by team
position and member position. -/
structure Oracle where
  mid : Nat → Nat → String
  rSize : Nat → Nat
  rDelay : Nat → Nat → Nat
  rHour : Nat → Nat → Nat

/-- Main loop of `TeamMembershipGenerator.generate` (lines 129-175): per
team, department-matching users, the under-4-teams filter with its
all-maxed-out fallback (tracked in the returned flag), a stable sort by
current assignment count, a prefix of sampled target size, and the
first-is-admin role rule.  `int(random.triangular(lo, hi, mode))` lands in
`[lo, hi]`, modelled by a coerced draw. -/
def run (users : List User) (o : Oracle) (sizeLo sizeHi now : Int) :
    List (Nat × Team) → List TeamMembership → Bool → List TeamMembership × Bool
  | [], ms, fb => (ms, fb)
  | (k, team) :: rest, ms, fb =>
    let target := randint sizeLo sizeHi (o.rSize k)
    let matching := users.filter (fun u => u.department == team.team_type)
    let matching := if matching = [] then users else matching
    let available := matching.filter (fun u => countTeams ms u.user_id < 4)
    let fbHere := decide (available = [])
    let available := if available = [] then matching else available
    let num := min target.toNat available.length
    let sorted := sortByLe
      (fun a b => decide (countTeams ms a.user_id ≤ countTeams ms b.user_id)) available
    let selected := sorted.take num
    let block := selected.enum.map (fun iu =>
      { membership_id := o.mid k iu.1
        team_id := team.team_id
        user_id := iu.2.user_id
        role := if iu.1 = 0 then "admin" else "member"
        joined_at := sampleJoinedAt iu.2.created_at team.created_at now
          (o.rDelay k iu.1) (o.rHour k iu.1) })
    run users o sizeLo sizeHi now rest (ms ++ block) (fb || fbHere)

/-- Embedding of `TeamMembershipGenerator.generate`; the second component
reports whether the cap-bypassing fallback (`if not available_users:
available_users = matching_users`) ever fired. -/
def generate (teams : List Team) (users : List User) (o : Oracle)
    (sizeLo sizeHi now : Int) : List TeamMembership × Bool :=
  run users o sizeLo sizeHi now teams.enum [] false

end TMGen

/-! ## Concrete inputs used to instantiate the theorems below -/

def wUser : User := ⟨"u1", "eng", 0⟩

def wProject : Project := ⟨"p1", "o1", "tm1", "u1", "sprint", "active", 0, 10, none, 0⟩

def wSection : Section := ⟨"s1", "p1", "To Do", 0, 50⟩

def wBM : TaskGen.Benchmarks := ⟨0, 1, 1, 30⟩

def wTGOracle : TaskGen.Oracle where
  taskId := fun _ _ => "t0"
  rPrio := fun _ _ => 0
  rDur := fun _ _ => 0
  rAssignee := fun _ _ => 0
  rAdj := fun _ _ => 0
  rOff := fun _ _ => 0
  rHour := fun _ _ => 0
  rMin := fun _ _ => 0
  rPush := fun _ _ => 0
  completedDraw := fun _ _ => true
  inProgressDraw := fun _ _ => false
  hasDue := fun _ _ => true
  onTime := fun _ _ => true
  c1 := fun _ _ => 0
  c2 := fun _ _ => 0
  c3 := fun _ _ => 0
  c4 := fun _ _ => 0
  c5 := fun _ _ => 0
  cHour := fun _ _ => 0
  cMin := fun _ _ => 0
  c7 := fun _ _ => 0
  c8 := fun _ _ => 0
  taskName := fun _ _ => "Fix login bug"
  rCreator := fun _ _ => 0
  rStart := fun _ _ => 0

def wNow : Int := 1000000

def wSGOracle : SectionGen.Oracle where
  sid := fun _ _ => "sec"
  rDays := fun _ _ => 0
  rHour := fun _ _ => 0
  rPush := fun _ _ => 0

def wTaskA : Task :=
  ⟨"ta", "p1", "s1", "u1", "u1", "Fix login bug", "high", none, none, false, none, 0⟩

def wTaskB : Task :=
  ⟨"tb", "p1", "s1", "u1", "u1", "Review PR", "low", none, none, false, none, 100⟩

def wDepOracle : DepGen.Oracle where
  shouldDep := fun _ _ => true
  numDeps := fun _ _ => 0
  sampleIdx := fun _ _ => [0]
  depId := fun _ _ _ => "d"
  createdOff := fun _ _ _ => 0

def wDepRec : TaskDependency :=
  (DepGen.generate [wTaskA, wTaskB] wDepOracle).headD ⟨"", "", "", 0⟩

def wTag1 : Tag := ⟨"tag1", "o1", "Bug"⟩

def wTag2 : Tag := ⟨"tag2", "o1", "Feature"⟩

def wTTOracle : TaskTagGen.Oracle where
  shouldTag := fun _ => true
  sampleIdxs := fun _ => [0]
  numTags := fun _ => 0
  select := fun _ => [0]
  ttid := fun _ _ => "tt"
  rDays := fun _ _ => 0
  rHours := fun _ _ => 0

def wTeams5 : List Team :=
  [⟨"t1", "eng", 0⟩, ⟨"t2", "eng", 0⟩, ⟨"t3", "eng", 0⟩, ⟨"t4", "eng", 0⟩,
   ⟨"t5", "eng", 0⟩]

def wTMOracle : TMGen.Oracle where
  mid := fun _ _ => "m"
  rSize := fun _ => 0
  rDelay := fun _ _ => 0
  rHour := fun _ _ => 0

def wTask : Task :=
  (TaskGen.generate wBM wTGOracle wNow [wProject] [wSection] [wUser]).headD junkTask

/-! ## Basic bounds on the random-draw models -/

theorem le_randint (lo hi : Int) (r : Nat) : lo ≤ randint lo hi r := by
  have : (0 : Int) ≤ ((r % (hi - lo + 1).toNat : Nat) : Int) := Int.natCast_nonneg _
  unfold randint
  omega

theorem randint_le (lo hi : Int) (r : Nat) (h : lo ≤ hi) : randint lo hi r ≤ hi := by
  have hn : 0 < (hi - lo + 1).toNat := by omega
  have hlt : r % (hi - lo + 1).toNat < (hi - lo + 1).toNat := Nat.mod_lt _ hn
  have hc : ((r % (hi - lo + 1).toNat : Nat) : Int) < ((hi - lo + 1).toNat : Int) := by
    exact_mod_cast hlt
  have ht : (((hi - lo + 1).toNat : Int)) = hi - lo + 1 := by omega
  unfold randint
  omega

/-- Shape of the final two statements of `TaskGenerator._sample_created_at`:
whatever the preceding value, the result never exceeds `now`. -/
theorem pushTwo_le (now x p : Int) :
    (if (if x > now then now - p * 3600 else x) > now then now - 3600
     else if x > now then now - p * 3600 else x) ≤ now := by
  split_ifs <;> omega

/-- Shape of the final two checks of `TaskGenerator._sample_completed_at`:
given `c ≤ now`, the result lies in `[c, now]` whatever came before. -/
theorem clampTwo_bounds (c now x : Int) (h : c ≤ now) :
    c ≤ (if (if x < c then c + 1 else x) > now then now
         else if x < c then c + 1 else x) ∧
    (if (if x < c then c + 1 else x) > now then now
     else if x < c then c + 1 else x) ≤ now := by
  split_ifs <;> omega

namespace TaskGen

theorem sampleCreatedAt_le_now (p a now : Int) (r1 r2 r3 r4 r5 : Nat) :
    sampleCreatedAt p a now r1 r2 r3 r4 r5 ≤ now := by
  simp only [sampleCreatedAt]
  exact pushTwo_le now _ _

theorem sampleCompletedAt_eq_none_iff (c : Int) (d : Option Int) (st : String) (now : Int)
    (ot : Bool) (r1 r2 r3 r4 r5 rH rM r7 r8 : Nat) :
    sampleCompletedAt c d st now ot r1 r2 r3 r4 r5 rH rM r7 r8 = none ↔ st ≠ "completed" := by
  by_cases h : st = "completed"
  · unfold sampleCompletedAt
    rw [if_neg (by simp [h])]
    simp [h]
  · unfold sampleCompletedAt
    rw [if_pos h]
    simp [h]

theorem sampleCompletedAt_some_bounds (c : Int) (d : Option Int) (st : String) (now : Int)
    (ot : Bool) (r1 r2 r3 r4 r5 rH rM r7 r8 : Nat) (hc : c ≤ now) (v : Int)
    (hv : sampleCompletedAt c d st now ot r1 r2 r3 r4 r5 rH rM r7 r8 = some v) :
    c ≤ v ∧ v ≤ now := by
  by_cases h : st = "completed"
  · unfold sampleCompletedAt at hv
    rw [if_neg (by simp [h])] at hv
    rw [Option.some_inj] at hv
    subst hv
    exact clampTwo_bounds c now _ hc
  · rw [(sampleCompletedAt_eq_none_iff c d st now ot r1 r2 r3 r4 r5 rH rM r7 r8).2 h] at hv
    exact absurd hv (by simp)

/-- Completed-flag and completion-timestamp consistency of one task
produced by the inner loop of `TaskGenerator.generate`. -/
theorem mkTask_completed_consistency (o : Oracle) (bm : Benchmarks) (now : Int)
    (tu : List User) (project : Project) (ps : List Section) (k j : Nat) :
    ((mkTask o bm now tu project ps k j).completed = true ↔
      (mkTask o bm now tu project ps k j).completed_at ≠ none) ∧
    (∀ v, (mkTask o bm now tu project ps k j).completed_at = some v →
      (mkTask o bm now tu project ps k j).created_at ≤ v) := by
  simp only [mkTask]
  constructor
  · rw [beq_iff_eq, Ne, sampleCompletedAt_eq_none_iff]
    simp
  · intro v hv
    exact (sampleCompletedAt_some_bounds _ _ _ _ _ _ _ _ _ _ _ _ _ _
      (sampleCreatedAt_le_now _ _ _ _ _ _ _ _) v hv).1

theorem mkTask_project_id (o : Oracle) (bm : Benchmarks) (now : Int)
    (tu : List User) (project : Project) (ps : List Section) (k j : Nat) :
    (mkTask o bm now tu project ps k j).project_id = project.project_id := rfl

/-- Decomposition of membership in the task generator's output. -/
theorem mem_generate {bm : Benchmarks} {o : Oracle} {now : Int}
    {projects : List Project} {sections : List Section} {users : List User} {t : Task}
    (ht : t ∈ generate bm o now projects sections users) :
    ∃ k p, (k, p) ∈ (activeProjects projects).enum ∧ projectSections sections p ≠ [] ∧
      ∃ j, t = mkTask o bm now (teamUsers projects users p) p (projectSections sections p) k j := by
  simp only [generate, List.mem_flatMap] at ht
  obtain ⟨kp, hkp, hmem⟩ := ht
  by_cases hs : projectSections sections kp.2 = []
  · rw [if_pos hs] at hmem
    simp at hmem
  · rw [if_neg hs] at hmem
    rw [List.mem_map] at hmem
    obtain ⟨j, _, rfl⟩ := hmem
    exact ⟨kp.1, kp.2, by simpa using hkp, hs, j, rfl⟩

theorem activeProjects_sub {projects : List Project} {p : Project}
    (hp : p ∈ activeProjects projects) : p ∈ projects := by
  simp only [activeProjects] at hp
  by_cases h : projects.filter (fun p => p.status == "active" || p.status == "on_hold") = []
  · rwa [if_pos h] at hp
  · rw [if_neg h] at hp
    exact (List.mem_filter.1 hp).1

theorem activeProjects_status {projects : List Project} {p q : Project}
    (hp : p ∈ activeProjects projects) (hq : q ∈ projects)
    (hqs : q.status = "active" ∨ q.status = "on_hold") :
    p.status = "active" ∨ p.status = "on_hold" := by
  have hqf : q ∈ projects.filter (fun p => p.status == "active" || p.status == "on_hold") :=
    List.mem_filter.2 ⟨hq, by rcases hqs with h | h <;> simp [h]⟩
  have hne : projects.filter (fun p => p.status == "active" || p.status == "on_hold") ≠ [] :=
    List.ne_nil_of_mem hqf
  simp only [activeProjects, if_neg hne] at hp
  simpa using (List.mem_filter.1 hp).2

end TaskGen

/-! ## Claim C1 -/

/-- C1: every task produced by `TaskGenerator.generate` has
`completed = true` iff `completed_at` is non-null, and a completed task's
`completed_at` is at or after its `created_at`. -/
theorem claim_C1_completed_consistency (bm : TaskGen.Benchmarks) (o : TaskGen.Oracle)
    (now : Int) (projects : List Project) (sections : List Section) (users : List User) :
    ∀ t ∈ TaskGen.generate bm o now projects sections users,
      (t.completed = true ↔ t.completed_at ≠ none) ∧
      (∀ v, t.completed_at = some v → t.created_at ≤ v) := by
  intro t ht
  obtain ⟨k, p, _, _, j, rfl⟩ := TaskGen.mem_generate ht
  exact TaskGen.mkTask_completed_consistency o bm now _ p _ k j

/-- Closed instantiation of the C1 theorem at a concrete generator run. -/
theorem claim_C1_completed_consistency_witness :
    wTask ∈ TaskGen.generate wBM wTGOracle wNow [wProject] [wSection] [wUser] ∧
    ((wTask.completed = true ↔ wTask.completed_at ≠ none) ∧
      (∀ v, wTask.completed_at = some v → wTask.created_at ≤ v)) :=
  ⟨by decide, claim_C1_completed_consistency wBM wTGOracle wNow [wProject] [wSection] [wUser]
      wTask (by decide)⟩

/-! ## Claim C10 -/

/-- C10: every generated task belongs to a project from the input list
that has at least one section, and that project is `active`/`on_hold`
whenever any `active`/`on_hold` project exists (the fallback to all
projects fires only when none exists). -/
theorem claim_C10_task_project_scoping (bm : TaskGen.Benchmarks) (o : TaskGen.Oracle)
    (now : Int) (projects : List Project) (sections : List Section) (users : List User) :
    ∀ t ∈ TaskGen.generate bm o now projects sections users,
      ∃ p ∈ projects, t.project_id = p.project_id ∧
        (∃ s ∈ sections, s.project_id = p.project_id) ∧
        (∀ q ∈ projects, (q.status = "active" ∨ q.status = "on_hold") →
          (p.status = "active" ∨ p.status = "on_hold")) := by
  intro t ht
  obtain ⟨k, p, hkp, hps, j, rfl⟩ := TaskGen.mem_generate ht
  have hpa : p ∈ TaskGen.activeProjects projects := by
    obtain ⟨hk, hpe⟩ := List.mem_enum hkp
    exact hpe ▸ List.getElem_mem hk
  refine ⟨p, TaskGen.activeProjects_sub hpa, TaskGen.mkTask_project_id o bm now _ p _ k j, ?_, ?_⟩
  · obtain ⟨s, hs⟩ := List.exists_mem_of_ne_nil _ hps
    have := List.mem_filter.1 hs
    exact ⟨s, this.1, by simpa using this.2⟩
  · intro q hq hqs
    exact TaskGen.activeProjects_status hpa hq hqs

/-- Closed instantiation of the C10 theorem at a concrete generator run. -/
theorem claim_C10_task_project_scoping_witness :
    ∃ p ∈ [wProject], wTask.project_id = p.project_id ∧
      (∃ s ∈ [wSection], s.project_id = p.project_id) ∧
      (∀ q ∈ [wProject], (q.status = "active" ∨ q.status = "on_hold") →
        (p.status = "active" ∨ p.status = "on_hold")) :=
  claim_C10_task_project_scoping wBM wTGOracle wNow [wProject] [wSection] [wUser]
    wTask (by decide)

/-! ## Claim C3 -/

/-- C3 (refuting evaluation): with project created at 0, assignee created
at second 892800 (day 10, 08:00), generation time 896400 (day 10, 09:00),
business-hour draw 20:00 and push-back draw 2 hours,
`TaskGenerator._sample_created_at` returns 889200 (day 10, 07:00) —
strictly before `max(project.created_at, assignee.created_at)`, although
the clock bound `created_at ≤ now` does hold.  The final `≤ now`
push-back undoes the earlier `≥ earliest` clamp. -/
theorem claim_C3_created_at_parent_bound_failure :
    TaskGen.sampleCreatedAt 0 892800 896400 0 0 12 0 1 = 889200 ∧
    TaskGen.sampleCreatedAt 0 892800 896400 0 0 12 0 1 < max 0 892800 := by decide

/-! ## Claim C7 -/

namespace SectionGen

theorem blockFor_positions (o : Oracle) (now : Int) (kp : Nat × Project) :
    ((blockFor o now kp).filter (fun s => s.project_id == kp.2.project_id)).map
        Section.position =
      List.range (sectionNamesFor kp.2.project_type).length := by
  have hall : (blockFor o now kp).filter (fun s => s.project_id == kp.2.project_id) =
      blockFor o now kp := by
    rw [List.filter_eq_self]
    intro s hs
    simp only [blockFor, List.mem_map] at hs
    obtain ⟨pn, _, rfl⟩ := hs
    simp
  rw [hall]
  simp only [blockFor, List.map_map]
  exact List.enum_map_fst (sectionNamesFor kp.2.project_type)

theorem blockFor_filter_ne (o : Oracle) (now : Int) (kp : Nat × Project) (pid : String)
    (h : kp.2.project_id ≠ pid) :
    (blockFor o now kp).filter (fun s => s.project_id == pid) = [] := by
  rw [List.filter_eq_nil_iff]
  intro s hs
  simp only [blockFor, List.mem_map] at hs
  obtain ⟨pn, _, rfl⟩ := hs
  simpa using h

theorem noMatch_filter_nil (o : Oracle) (now : Int) (pid : String) (l : List Project)
    (n : Nat) (h : ∀ q ∈ l, q.project_id ≠ pid) :
    ((List.enumFrom n l).flatMap (blockFor o now)).filter
      (fun s => s.project_id == pid) = [] := by
  induction l generalizing n with
  | nil => simp
  | cons q t ih =>
    rw [List.enumFrom_cons, List.flatMap_cons, List.filter_append]
    rw [blockFor_filter_ne o now (n, q) pid (h q (List.mem_cons_self q t)),
      ih (n + 1) (fun x hx => h x (List.mem_cons_of_mem q hx))]
    rfl

end SectionGen

/-- C7: for every project handed to the section generator, the positions
of the sections generated for that project (identified by its project id,
which the hypothesis makes unambiguous) are exactly the contiguous
sequence `0 .. n-1` in template order. -/
theorem claim_C7_section_positions (o : SectionGen.Oracle) (now : Int)
    (projects : List Project) (hnd : (projects.map Project.project_id).Nodup) :
    ∀ p ∈ projects,
      ((SectionGen.generate o now projects).filter
          (fun s => s.project_id == p.project_id)).map Section.position =
        List.range (SectionGen.sectionNamesFor p.project_type).length := by
  intro p hp
  obtain ⟨l₁, l₂, rfl⟩ := List.append_of_mem hp
  have hnd' := hnd
  rw [List.map_append, List.nodup_append] at hnd'
  obtain ⟨_, hnd₂, hdisj⟩ := hnd'
  have h₁ : ∀ q ∈ l₁, q.project_id ≠ p.project_id := by
    intro q hq he
    exact hdisj (List.mem_map_of_mem _ hq) (by simp [he])
  have h₂ : ∀ q ∈ l₂, q.project_id ≠ p.project_id := by
    rw [List.map_cons, List.nodup_cons] at hnd₂
    intro q hq he
    exact hnd₂.1 (he ▸ List.mem_map_of_mem _ hq)
  show ((((l₁ ++ p :: l₂).enum).flatMap (SectionGen.blockFor o now)).filter
      (fun s => s.project_id == p.project_id)).map Section.position = _
  rw [List.enum_append, List.enumFrom_cons, List.flatMap_append, List.flatMap_cons,
    List.filter_append, List.filter_append]
  rw [show l₁.enum = List.enumFrom 0 l₁ from rfl]
  rw [SectionGen.noMatch_filter_nil o now p.project_id l₁ 0 h₁,
    SectionGen.noMatch_filter_nil o now p.project_id l₂ (l₁.length + 1) h₂]
  rw [List.nil_append, List.append_nil]
  exact SectionGen.blockFor_positions o now (l₁.length, p)

/-- Closed instantiation of the C7 theorem at a concrete run. -/
theorem claim_C7_section_positions_witness :
    ([wProject].map Project.project_id).Nodup ∧
    ((SectionGen.generate wSGOracle wNow [wProject]).filter
        (fun s => s.project_id == wProject.project_id)).map Section.position =
      List.range (SectionGen.sectionNamesFor wProject.project_type).length :=
  ⟨by decide, claim_C7_section_positions wSGOracle wNow [wProject] (by decide)
    wProject (by decide)⟩

/-! ## Claim C6 -/

namespace CommentGen

theorem effectiveEnd_le_now (T : Int) (compl : Option Int) (now : Int) (r : Nat) :
    effectiveEnd T compl now r ≤ now := by
  simp only [effectiveEnd]
  split_ifs <;> omega

theorem lt_effectiveEnd (T : Int) (compl : Option Int) (now : Int) (r : Nat)
    (h : T < now) : T < effectiveEnd T compl now r := by
  simp only [effectiveEnd]
  have hr := le_randint 1 48 r
  split_ifs <;> omega

end CommentGen

/-- C6 (amended): for a task created strictly before `now`, every comment
timestamp produced by `CommentGenerator._sample_created_at` lies in
`[task.created_at, now]`.  (At `task.created_at = now` exactly, the
`time_span <= 0` edge branch instead returns a point 1-60 minutes past
`now`; see the counterexample.) -/
theorem claim_C6_comment_bounds (T : Int) (compl : Option Int) (now : Int)
    (r1 r2 r3 r4 r5 r6 : Nat) (h : T < now) :
    T ≤ CommentGen.sampleCreatedAt T compl now r1 r2 r3 r4 r5 r6 ∧
    CommentGen.sampleCreatedAt T compl now r1 r2 r3 r4 r5 r6 ≤ now := by
  simp only [CommentGen.sampleCreatedAt]
  have h1 := CommentGen.lt_effectiveEnd T compl now r1 h
  have h2 := CommentGen.effectiveEnd_le_now T compl now r1
  set e := CommentGen.effectiveEnd T compl now r1 with he
  have hspan : ¬ (e - T ≤ 0) := by omega
  rw [if_neg hspan]
  have hm1 : 0 ≤ (r3 : Int) % (e - T + 1) := Int.emod_nonneg _ (by omega)
  have hm2 : (r3 : Int) % (e - T + 1) < e - T + 1 := Int.emod_lt_of_pos _ (by omega)
  split_ifs <;> omega

/-- Closed instantiation of the C6 theorem. -/
theorem claim_C6_comment_bounds_witness :
    (0 : Int) < 1000 ∧
    ((0 : Int) ≤ CommentGen.sampleCreatedAt 0 none 1000 0 0 0 0 0 0 ∧
      CommentGen.sampleCreatedAt 0 none 1000 0 0 0 0 0 0 ≤ 1000) :=
  ⟨by decide, claim_C6_comment_bounds 0 none 1000 0 0 0 0 0 0 (by decide)⟩

/-- C6 counterexample: for a task created exactly at `now` (both 0,
allowed by the claim's non-strict bound), the sampler returns 60 seconds
after `now`, violating `comment.created_at ≤ now`. -/
theorem claim_C6_boundary_counterexample :
    CommentGen.sampleCreatedAt 0 none 0 0 0 0 0 0 0 = 60 ∧
    ¬ (CommentGen.sampleCreatedAt 0 none 0 0 0 0 0 0 0 ≤ 0) := by decide

/-! ## Claim C5 -/

/-- Case analysis of the final two constraints of
`ProjectGenerator._sample_completed_at`: either the future-check does not
fire and the value respects both bounds, or it fires and the value is a
business-hour point on the day of `now` minus 1-48 hours, which can
precede `start_date` and exceed `now`. -/
theorem projClampCases (start now x p q qf : Int)
    (hp : 1 ≤ p ∧ p ≤ 48) (hq : 8 ≤ q ∧ q ≤ 17) (hqf : 8 ≤ qf ∧ qf ≤ 17) :
    (start ≤ dateOf (if (if dateOf x < start then replaceTime (start * 86400) qf 0 else x) > now
          then replaceTime (now - p * 3600) q 0
          else if dateOf x < start then replaceTime (start * 86400) qf 0 else x) ∧
        (if (if dateOf x < start then replaceTime (start * 86400) qf 0 else x) > now
          then replaceTime (now - p * 3600) q 0
          else if dateOf x < start then replaceTime (start * 86400) qf 0 else x) ≤ now) ∨
    (dateOf (now - 48 * 3600) * 86400 + 8 * 3600 ≤
        (if (if dateOf x < start then replaceTime (start * 86400) qf 0 else x) > now
          then replaceTime (now - p * 3600) q 0
          else if dateOf x < start then replaceTime (start * 86400) qf 0 else x) ∧
        (if (if dateOf x < start then replaceTime (start * 86400) qf 0 else x) > now
          then replaceTime (now - p * 3600) q 0
          else if dateOf x < start then replaceTime (start * 86400) qf 0 else x) ≤
          dateOf (now - 3600) * 86400 + 17 * 3600) := by
  simp only [replaceTime, dateOf]
  split_ifs <;> [right; left; right; left] <;> constructor <;> omega

/-- C5 (amended): a project's `completed_at` is non-null iff its status is
`completed` or `archived` (in particular an `active` project has none);
when non-null it satisfies `start_date ≤ completed_at.date()` and
`completed_at ≤ now` unless the final future-check fired, in which case it
is a business-hour point of the day of `now − (1..48)` hours and may
violate either bound (see the counterexample). -/
theorem claim_C5_project_completed_at (start due : Int) (status : String) (now : Int)
    (ot : Bool) (r1 r2 r3 r4 rH rFixH rNow rNowH : Nat) :
    (ProjectGen.sampleCompletedAt start due status now ot r1 r2 r3 r4 rH rFixH rNow rNowH =
        none ↔ ¬ (status = "completed" ∨ status = "archived")) ∧
    (∀ v, ProjectGen.sampleCompletedAt start due status now ot r1 r2 r3 r4 rH rFixH rNow rNowH =
        some v →
      (start ≤ dateOf v ∧ v ≤ now) ∨
      (dateOf (now - 48 * 3600) * 86400 + 8 * 3600 ≤ v ∧
        v ≤ dateOf (now - 3600) * 86400 + 17 * 3600)) := by
  constructor
  · by_cases h : status = "completed" ∨ status = "archived"
    · unfold ProjectGen.sampleCompletedAt
      rw [if_neg (by simp [h])]
      simp [h]
    · unfold ProjectGen.sampleCompletedAt
      rw [if_pos h]
      simp [h]
  · intro v hv
    by_cases h : status = "completed" ∨ status = "archived"
    · unfold ProjectGen.sampleCompletedAt at hv
      rw [if_neg (by simp [h])] at hv
      rw [Option.some_inj] at hv
      subst hv
      exact projClampCases start now _ _ _ _
        ⟨le_randint 1 48 rNow, randint_le 1 48 rNow (by norm_num)⟩
        ⟨le_randint 8 17 rNowH, randint_le 8 17 rNowH (by norm_num)⟩
        ⟨le_randint 8 17 rFixH, randint_le 8 17 rFixH (by norm_num)⟩
    · unfold ProjectGen.sampleCompletedAt at hv
      rw [if_pos h] at hv
      exact absurd hv (by simp)

/-- Closed instantiation of the C5 theorem. -/
theorem claim_C5_project_completed_at_witness :
    ProjectGen.sampleCompletedAt 10 20 "completed" 896400 true 0 0 0 0 9 0 9 0 =
      some 806400 ∧
    ((10 ≤ dateOf 806400 ∧ (806400 : Int) ≤ 896400) ∨
      (dateOf (896400 - 48 * 3600) * 86400 + 8 * 3600 ≤ (806400 : Int) ∧
        (806400 : Int) ≤ dateOf (896400 - 3600) * 86400 + 17 * 3600)) :=
  ⟨by decide,
    (claim_C5_project_completed_at 10 20 "completed" 896400 true 0 0 0 0 9 0 9 0).2
      806400 (by decide)⟩

/-- C5 counterexample: start day 10, due day 20, status `completed`,
`now` = day 10 at 09:00 (896400).  With hour draw 17:00 the sampled value
overshoots `now`, and the final re-clamp lands (a) with push-back 10 h and
hour 08:00 on `completed_at = 806400`, whose date (day 9) precedes
`start_date`; (b) with push-back 1 h and hour 17:00 on
`completed_at = 925200 > now`. -/
theorem claim_C5_counterexample :
    (ProjectGen.sampleCompletedAt 10 20 "completed" 896400 true 0 0 0 0 9 0 9 0 =
        some 806400 ∧ dateOf 806400 < 10) ∧
    (ProjectGen.sampleCompletedAt 10 20 "completed" 896400 true 0 0 0 0 9 0 0 9 =
        some 925200 ∧ ¬ ((925200 : Int) ≤ 896400)) := by decide

/-! ## Sorting lemmas for the stable insertion sort -/

theorem insertSorted_perm {α : Type} (le : α → α → Bool) (a : α) (l : List α) :
    (insertSorted le a l).Perm (a :: l) := by
  induction l with
  | nil => exact List.Perm.refl _
  | cons b t ih =>
    simp only [insertSorted]
    split_ifs
    · exact List.Perm.refl _
    · exact (ih.cons b).trans (List.Perm.swap a b t)

theorem sortByLe_perm {α : Type} (le : α → α → Bool) (l : List α) :
    (sortByLe le l).Perm l := by
  induction l with
  | nil => exact List.Perm.refl _
  | cons x xs ih => exact (insertSorted_perm le x _).trans (ih.cons x)

theorem insertSorted_pairwise {α : Type} (le : α → α → Bool)
    (htrans : ∀ a b c, le a b = true → le b c = true → le a c = true)
    (htot : ∀ a b, le a b = true ∨ le b a = true)
    (a : α) (l : List α) (hl : l.Pairwise (fun x y => le x y = true)) :
    (insertSorted le a l).Pairwise (fun x y => le x y = true) := by
  induction l with
  | nil => simp [insertSorted]
  | cons b t ih =>
    rw [List.pairwise_cons] at hl
    obtain ⟨hb, ht⟩ := hl
    simp only [insertSorted]
    split_ifs with hab
    · refine List.Pairwise.cons ?_ (List.Pairwise.cons hb ht)
      intro y hy
      rcases List.mem_cons.1 hy with rfl | hy
      · exact hab
      · exact htrans a b y hab (hb y hy)
    · have hba : le b a = true := (htot a b).resolve_left (by simpa using hab)
      refine List.Pairwise.cons ?_ (ih ht)
      intro y hy
      rcases List.mem_cons.1 ((insertSorted_perm le a t).mem_iff.1 hy) with rfl | hy2
      · exact hba
      · exact hb y hy2

theorem sortByLe_pairwise {α : Type} (le : α → α → Bool)
    (htrans : ∀ a b c, le a b = true → le b c = true → le a c = true)
    (htot : ∀ a b, le a b = true ∨ le b a = true) (l : List α) :
    (sortByLe le l).Pairwise (fun x y => le x y = true) := by
  induction l with
  | nil => simp [sortByLe]
  | cons x xs ih => exact insertSorted_pairwise le htrans htot x _ ih

/-! ## Generic rank / index lemmas for the acyclicity argument -/

theorem acyclic_of_rank {α : Type} (edges : List (α × α)) (rank : α → Nat)
    (h : ∀ e ∈ edges, rank e.2 < rank e.1) :
    ∀ a, ¬ Relation.TransGen (fun x y => (x, y) ∈ edges) a a := by
  have key : ∀ x y, Relation.TransGen (fun x y => (x, y) ∈ edges) x y → rank y < rank x := by
    intro x y hxy
    induction hxy with
    | single h1 => exact h _ h1
    | tail _ h1 ih => exact lt_trans (h _ h1) ih
  exact fun a ha => lt_irrefl _ (key a a ha)

theorem indexOf_append_right {α : Type} [DecidableEq α] (A L : List α) (x : α)
    (hx : x ∉ A) : (A ++ L).indexOf x = A.length + L.indexOf x := by
  induction A with
  | nil => simp
  | cons a t ih =>
    have hax : a ≠ x := fun he => hx (he ▸ List.mem_cons_self a t)
    rw [List.cons_append, List.indexOf_cons_ne _ hax,
      ih (fun hm => hx (List.mem_cons_of_mem a hm))]
    simp [Nat.succ_eq_add_one]
    omega

theorem indexOf_append_left {α : Type} [DecidableEq α] (A L : List α) (x : α)
    (hx : x ∈ A) : (A ++ L).indexOf x = A.indexOf x := by
  induction A with
  | nil => exact absurd hx (List.not_mem_nil x)
  | cons a t ih =>
    by_cases hax : a = x
    · subst hax
      rw [List.cons_append, List.indexOf_cons_self, List.indexOf_cons_self]
    · rcases List.mem_cons.1 hx with rfl | hm
      · exact absurd rfl hax
      · rw [List.cons_append, List.indexOf_cons_ne _ hax, List.indexOf_cons_ne _ hax, ih hm]

theorem pairwise_getD {α : Type} {P : α → α → Prop} {l : List α} (h : l.Pairwise P)
    {i j : Nat} (hij : j < i) (hi : i < l.length) (d : α) :
    P (l.getD j d) (l.getD i d) := by
  have hj : j < l.length := lt_trans hij hi
  rw [List.getD_eq_getElem l d hj, List.getD_eq_getElem l d hi]
  exact List.pairwise_iff_get.1 h ⟨j, hj⟩ ⟨i, hi⟩ hij

/-! ## Claim C2: dependency generator invariants -/

theorem getD_take_eq {α : Type} (l : List α) (n i : Nat) (d : α) (h : i < n) :
    (l.take n).getD i d = l.getD i d := by
  rw [List.getD_eq_getElem?_getD, List.getD_eq_getElem?_getD, List.getElem?_take, if_pos h]

namespace DepGen

theorem mkRecs_mem (o : Oracle) (g i : Nat) (dep : Task) (potential : List Task) :
    ∀ (idxs : List Nat) (m : Nat) (st : DepState) (r : TaskDependency),
      r ∈ (mkRecs o g i dep potential idxs m st).1 →
      r ∈ st.1 ∨ (r.dependent_task_id = dep.task_id ∧
        (∃ idx ∈ idxs, r.dependency_task_id = (potential.getD idx junkTask).task_id) ∧
        dep.created_at + 3600 ≤ r.created_at ∧ r.created_at ≤ dep.created_at + 24 * 3600) := by
  intro idxs
  induction idxs with
  | nil => intro m st r hr; exact Or.inl hr
  | cons idx rest ih =>
    intro m st r hr
    simp only [mkRecs] at hr
    split_ifs at hr with hkey
    · rcases ih (m + 1) st r hr with h | h
      · exact Or.inl h
      · obtain ⟨h1, ⟨idx', hm', h2⟩, h3⟩ := h
        exact Or.inr ⟨h1, ⟨idx', List.mem_cons_of_mem _ hm', h2⟩, h3⟩
    · rcases ih (m + 1) _ r hr with h | h
      · rcases List.mem_append.1 h with h' | h'
        · exact Or.inl h'
        · have := List.eq_of_mem_singleton h'
          subst this
          refine Or.inr ⟨rfl, ⟨idx, List.mem_cons_self _ _, rfl⟩, ?_, ?_⟩
          all_goals
            have h1 := le_randint 1 24 (o.createdOff g i m)
            have h2 := randint_le 1 24 (o.createdOff g i m) (by norm_num)
          · show dep.created_at + 3600 ≤
              dep.created_at + randint 1 24 (o.createdOff g i m) * 3600
            omega
          · show dep.created_at + randint 1 24 (o.createdOff g i m) * 3600 ≤
              dep.created_at + 24 * 3600
            omega
      · obtain ⟨h1, ⟨idx', hm', h2⟩, h3⟩ := h
        exact Or.inr ⟨h1, ⟨idx', List.mem_cons_of_mem _ hm', h2⟩, h3⟩

theorem genGroupAux_mem (o : Oracle) (g : Nat) (sorted : List Task) :
    ∀ (is : List Nat) (st : DepState) (r : TaskDependency),
      r ∈ (genGroupAux o g sorted is st).1 →
      r ∈ st.1 ∨ ∃ i ∈ is, ∃ j : Nat, j < i ∧
        r.dependent_task_id = (sorted.getD i junkTask).task_id ∧
        r.dependency_task_id = (sorted.getD j junkTask).task_id ∧
        (sorted.getD i junkTask).created_at + 3600 ≤ r.created_at ∧
        r.created_at ≤ (sorted.getD i junkTask).created_at + 24 * 3600 := by
  intro is
  induction is with
  | nil => intro st r hr; exact Or.inl hr
  | cons i rest ih =>
    intro st r hr
    simp only [genGroupAux] at hr
    by_cases h1 : ¬ o.shouldDep g i
    · rw [if_pos h1] at hr
      rcases ih st r hr with h | h
      · exact Or.inl h
      · obtain ⟨i', hm', rest'⟩ := h
        exact Or.inr ⟨i', List.mem_cons_of_mem _ hm', rest'⟩
    · rw [if_neg h1] at hr
      by_cases h2 : sorted.take i = []
      · rw [if_pos h2] at hr
        rcases ih st r hr with h | h
        · exact Or.inl h
        · obtain ⟨i', hm', rest'⟩ := h
          exact Or.inr ⟨i', List.mem_cons_of_mem _ hm', rest'⟩
      · rw [if_neg h2] at hr
        rcases ih _ r hr with h | h
        · rcases mkRecs_mem o g i (sorted.getD i junkTask) (sorted.take i) _ _ _ r h with
            h' | h'
          · exact Or.inl h'
          · obtain ⟨hdep, ⟨idx, hidx, hblk⟩, hlo, hhi⟩ := h'
            have hlenpos : 0 < (sorted.take i).length :=
              List.length_pos.2 h2
            have hidxlt : idx < (sorted.take i).length := by
              have hidx' : idx ∈ ((o.sampleIdx g i).map
                  (fun x => x % (sorted.take i).length)).dedup :=
                (List.take_sublist _ _).subset hidx
              rw [List.mem_dedup] at hidx'
              obtain ⟨x, _, rfl⟩ := List.mem_map.1 hidx'
              exact Nat.mod_lt x hlenpos
            have hidxi : idx < i := lt_of_lt_of_le hidxlt (by
              rw [List.length_take]
              exact min_le_left i sorted.length)
            rw [getD_take_eq sorted i idx junkTask hidxi] at hblk
            exact Or.inr ⟨i, List.mem_cons_self _ _, idx, hidxi, hdep, hblk, hlo, hhi⟩
        · obtain ⟨i', hm', rest'⟩ := h
          exact Or.inr ⟨i', List.mem_cons_of_mem _ hm', rest'⟩

theorem genAll_mem (tasks : List Task) (o : Oracle) :
    ∀ (ks : List (Nat × String)) (st : DepState) (r : TaskDependency),
      r ∈ (genAll tasks o ks st).1 →
      r ∈ st.1 ∨ ∃ gp ∈ ks, ∃ i j : Nat, j < i ∧ i < (sortedGroup tasks gp.2).length ∧
        r.dependent_task_id = ((sortedGroup tasks gp.2).getD i junkTask).task_id ∧
        r.dependency_task_id = ((sortedGroup tasks gp.2).getD j junkTask).task_id ∧
        ((sortedGroup tasks gp.2).getD i junkTask).created_at + 3600 ≤ r.created_at ∧
        r.created_at ≤ ((sortedGroup tasks gp.2).getD i junkTask).created_at + 24 * 3600 := by
  intro ks
  induction ks with
  | nil => intro st r hr; exact Or.inl hr
  | cons gp rest ih =>
    obtain ⟨g, pid⟩ := gp
    intro st r hr
    simp only [genAll] at hr
    rcases ih _ r hr with h | h
    · by_cases hlen : (sortedGroup tasks pid).length < 2
      · rw [if_pos hlen] at h
        exact Or.inl h
      · rw [if_neg hlen] at h
        rcases genGroupAux_mem o g (sortedGroup tasks pid) _ _ r h with h' | h'
        · exact Or.inl h'
        · obtain ⟨i, hi, j, hij, hrest⟩ := h'
          exact Or.inr ⟨(g, pid), List.mem_cons_self _ _, i, j, hij,
            List.mem_range.1 hi, hrest⟩
    · obtain ⟨gp', hm', rest'⟩ := h
      exact Or.inr ⟨gp', List.mem_cons_of_mem _ hm', rest'⟩

theorem generate_mem {tasks : List Task} {o : Oracle} {r : TaskDependency}
    (hr : r ∈ generate tasks o) :
    ∃ pid ∈ groupKeys tasks, ∃ i j : Nat, j < i ∧ i < (sortedGroup tasks pid).length ∧
      r.dependent_task_id = ((sortedGroup tasks pid).getD i junkTask).task_id ∧
      r.dependency_task_id = ((sortedGroup tasks pid).getD j junkTask).task_id ∧
      ((sortedGroup tasks pid).getD i junkTask).created_at + 3600 ≤ r.created_at ∧
      r.created_at ≤ ((sortedGroup tasks pid).getD i junkTask).created_at + 24 * 3600 := by
  rcases genAll_mem tasks o _ _ r hr with h | h
  · exact absurd h (List.not_mem_nil r)
  · obtain ⟨gp, hgp, rest⟩ := h
    have hmem : gp.2 ∈ groupKeys tasks := by
      have h2 := List.mem_enum (x := gp.2) (i := gp.1) (by simpa using hgp)
      exact h2.2 ▸ List.getElem_mem h2.1
    exact ⟨gp.2, hmem, rest⟩

end DepGen

namespace DepGen

theorem sortedGroup_perm (tasks : List Task) (pid : String) :
    (sortedGroup tasks pid).Perm (tasks.filter (fun t => t.project_id == pid)) :=
  sortByLe_perm _ _

theorem sortedGroup_pairwise (tasks : List Task) (pid : String) :
    (sortedGroup tasks pid).Pairwise (fun a b => a.created_at ≤ b.created_at) := by
  have h := sortByLe_pairwise (fun a b : Task => decide (a.created_at ≤ b.created_at))
    (fun a b c h1 h2 => by
      rw [decide_eq_true_iff] at h1 h2 ⊢
      omega)
    (fun a b => by
      rw [decide_eq_true_iff, decide_eq_true_iff]
      omega)
    (tasks.filter (fun t => t.project_id == pid))
  exact h.imp (fun hab => by
    rw [decide_eq_true_iff] at hab
    exact hab)

theorem mem_sortedGroup {tasks : List Task} {pid : String} {t : Task}
    (h : t ∈ sortedGroup tasks pid) : t ∈ tasks ∧ t.project_id = pid := by
  have h1 := (sortedGroup_perm tasks pid).mem_iff.1 h
  have h2 := List.mem_filter.1 h1
  exact ⟨h2.1, by simpa using h2.2⟩

theorem sortedGroup_ids_nodup (tasks : List Task) (pid : String)
    (hnd : (tasks.map Task.task_id).Nodup) :
    ((sortedGroup tasks pid).map Task.task_id).Nodup := by
  have hperm := (sortedGroup_perm tasks pid).map Task.task_id
  have hsub : ((tasks.filter (fun t => t.project_id == pid)).map Task.task_id).Sublist
      (tasks.map Task.task_id) := (List.filter_sublist tasks).map _
  exact hperm.nodup_iff.2 (hsub.nodup hnd)

theorem mem_sortedGroup_ids {tasks : List Task} {pid : String} {x : String}
    (h : x ∈ (sortedGroup tasks pid).map Task.task_id) :
    ∃ t, t ∈ tasks ∧ t.task_id = x ∧ t.project_id = pid := by
  obtain ⟨t, ht, rfl⟩ := List.mem_map.1 h
  obtain ⟨h1, h2⟩ := mem_sortedGroup ht
  exact ⟨t, h1, rfl, h2⟩

theorem groupKeys_nodup_aux (l : List Task) :
    ∀ acc : List String, acc.Nodup →
      (l.foldl (fun acc t =>
        if t.project_id ∈ acc then acc else acc ++ [t.project_id]) acc).Nodup := by
  induction l with
  | nil => intro acc hacc; exact hacc
  | cons t ts ih =>
    intro acc hacc
    simp only [List.foldl_cons]
    split_ifs with h
    · exact ih acc hacc
    · refine ih _ ?_
      rw [List.nodup_append]
      refine ⟨hacc, List.nodup_singleton _, ?_⟩
      intro a ha hb
      rw [List.mem_singleton] at hb
      subst hb
      exact h ha

theorem groupKeys_nodup (tasks : List Task) : (groupKeys tasks).Nodup :=
  groupKeys_nodup_aux tasks [] List.nodup_nil

theorem flat_ids_nodup (tasks : List Task) (hnd : (tasks.map Task.task_id).Nodup) :
    ((groupKeys tasks).flatMap
      (fun pid => (sortedGroup tasks pid).map Task.task_id)).Nodup := by
  rw [List.nodup_flatMap]
  refine ⟨fun pid _ => sortedGroup_ids_nodup tasks pid hnd, ?_⟩
  have hdis : ∀ p q : String, p ≠ q →
      List.Disjoint ((sortedGroup tasks p).map Task.task_id)
        ((sortedGroup tasks q).map Task.task_id) := by
    intro p q hpq a hap haq
    obtain ⟨t1, ht1, he1, hp1⟩ := mem_sortedGroup_ids hap
    obtain ⟨t2, ht2, he2, hp2⟩ := mem_sortedGroup_ids haq
    have ht12 : t1 = t2 := List.inj_on_of_nodup_map hnd ht1 ht2 (he1.trans he2.symm)
    exact hpq (hp1 ▸ hp2 ▸ congrArg Task.project_id ht12)
  exact (groupKeys_nodup tasks).imp (fun hab => hdis _ _ hab)

theorem rank_lt_of_positions (tasks : List Task) (hnd : (tasks.map Task.task_id).Nodup)
    (pid : String) (hpid : pid ∈ groupKeys tasks) (i j : Nat) (hij : j < i)
    (hi : i < (sortedGroup tasks pid).length) :
    ((groupKeys tasks).flatMap (fun q => (sortedGroup tasks q).map Task.task_id)).indexOf
        (((sortedGroup tasks pid).getD j junkTask).task_id) <
      ((groupKeys tasks).flatMap (fun q => (sortedGroup tasks q).map Task.task_id)).indexOf
        (((sortedGroup tasks pid).getD i junkTask).task_id) := by
  obtain ⟨pre, post, hkeys⟩ := List.append_of_mem hpid
  have hflatnd := flat_ids_nodup tasks hnd
  rw [hkeys, List.flatMap_append, List.flatMap_cons] at hflatnd ⊢
  have hj : j < (sortedGroup tasks pid).length := lt_trans hij hi
  have hjm : j < ((sortedGroup tasks pid).map Task.task_id).length := by
    simpa using hj
  have him : i < ((sortedGroup tasks pid).map Task.task_id).length := by
    simpa using hi
  have hxj : ((sortedGroup tasks pid).getD j junkTask).task_id =
      ((sortedGroup tasks pid).map Task.task_id).getD j junkTask.task_id := by
    rw [List.getD_map]
  have hxi : ((sortedGroup tasks pid).getD i junkTask).task_id =
      ((sortedGroup tasks pid).map Task.task_id).getD i junkTask.task_id := by
    rw [List.getD_map]
  rw [hxj, hxi]
  rw [List.nodup_append] at hflatnd
  obtain ⟨hndA, hndBC, hdisA⟩ := hflatnd
  have hBnd : ((sortedGroup tasks pid).map Task.task_id).Nodup :=
    sortedGroup_ids_nodup tasks pid hnd
  have hmemj : ((sortedGroup tasks pid).map Task.task_id).getD j junkTask.task_id ∈
      (sortedGroup tasks pid).map Task.task_id := by
    rw [List.getD_eq_getElem _ _ hjm]
    exact List.getElem_mem hjm
  have hmemi : ((sortedGroup tasks pid).map Task.task_id).getD i junkTask.task_id ∈
      (sortedGroup tasks pid).map Task.task_id := by
    rw [List.getD_eq_getElem _ _ him]
    exact List.getElem_mem him
  have hnotA : ∀ x ∈ (sortedGroup tasks pid).map Task.task_id,
      x ∉ pre.flatMap (fun q => (sortedGroup tasks q).map Task.task_id) := by
    intro x hx hxA
    exact hdisA hxA (List.mem_append.2 (Or.inl hx))
  rw [indexOf_append_right _ _ _ (hnotA _ hmemj),
    indexOf_append_right _ _ _ (hnotA _ hmemi),
    indexOf_append_left _ _ _ hmemj, indexOf_append_left _ _ _ hmemi]
  have hj' := List.get_indexOf hBnd ⟨j, hjm⟩
  have hi' := List.get_indexOf hBnd ⟨i, him⟩
  rw [List.getD_eq_getElem _ _ hjm, List.getD_eq_getElem _ _ him]
  rw [show ((sortedGroup tasks pid).map Task.task_id)[j] =
    ((sortedGroup tasks pid).map Task.task_id).get ⟨j, hjm⟩ from rfl]
  rw [show ((sortedGroup tasks pid).map Task.task_id)[i] =
    ((sortedGroup tasks pid).map Task.task_id).get ⟨i, him⟩ from rfl]
  rw [hj', hi']
  simp only [Fin.val_mk]
  omega

end DepGen

namespace DepGen

theorem mkRecs_inv (o : Oracle) (g i : Nat) (dep : Task) (potential : List Task) :
    ∀ (idxs : List Nat) (m : Nat) (st : DepState),
      (st.1.map depKey).Nodup → (∀ k ∈ st.1.map depKey, k ∈ st.2) →
      ((mkRecs o g i dep potential idxs m st).1.map depKey).Nodup ∧
      (∀ k ∈ (mkRecs o g i dep potential idxs m st).1.map depKey,
        k ∈ (mkRecs o g i dep potential idxs m st).2) := by
  intro idxs
  induction idxs with
  | nil => intro m st h1 h2; exact ⟨h1, h2⟩
  | cons idx rest ih =>
    intro m st h1 h2
    simp only [mkRecs]
    split_ifs with hkey
    · exact ih (m + 1) st h1 h2
    · apply ih
      · rw [List.map_append, List.nodup_append]
        refine ⟨h1, by simp, ?_⟩
        intro a ha hb
        simp only [List.map_cons, List.map_nil, List.mem_singleton] at hb
        subst hb
        exact hkey (h2 _ ha)
      · intro k hk
        rw [List.map_append] at hk
        rcases List.mem_append.1 hk with h | h
        · exact List.mem_append.2 (Or.inl (h2 _ h))
        · simp only [List.map_cons, List.map_nil, List.mem_singleton] at h
          subst h
          exact List.mem_append.2 (Or.inr (by simp [depKey]))

theorem genGroupAux_inv (o : Oracle) (g : Nat) (sorted : List Task) :
    ∀ (is : List Nat) (st : DepState),
      (st.1.map depKey).Nodup → (∀ k ∈ st.1.map depKey, k ∈ st.2) →
      ((genGroupAux o g sorted is st).1.map depKey).Nodup ∧
      (∀ k ∈ (genGroupAux o g sorted is st).1.map depKey,
        k ∈ (genGroupAux o g sorted is st).2) := by
  intro is
  induction is with
  | nil => intro st h1 h2; exact ⟨h1, h2⟩
  | cons i rest ih =>
    intro st h1 h2
    simp only [genGroupAux]
    by_cases hb1 : ¬ o.shouldDep g i
    · rw [if_pos hb1]
      exact ih st h1 h2
    · rw [if_neg hb1]
      by_cases hb2 : sorted.take i = []
      · rw [if_pos hb2]
        exact ih st h1 h2
      · rw [if_neg hb2]
        exact ih _
          (mkRecs_inv o g i (sorted.getD i junkTask) (sorted.take i) _ 0 st h1 h2).1
          (mkRecs_inv o g i (sorted.getD i junkTask) (sorted.take i) _ 0 st h1 h2).2

theorem genAll_inv (tasks : List Task) (o : Oracle) :
    ∀ (ks : List (Nat × String)) (st : DepState),
      (st.1.map depKey).Nodup → (∀ k ∈ st.1.map depKey, k ∈ st.2) →
      ((genAll tasks o ks st).1.map depKey).Nodup ∧
      (∀ k ∈ (genAll tasks o ks st).1.map depKey, k ∈ (genAll tasks o ks st).2) := by
  intro ks
  induction ks with
  | nil => intro st h1 h2; exact ⟨h1, h2⟩
  | cons gp rest ih =>
    obtain ⟨g, pid⟩ := gp
    intro st h1 h2
    simp only [genAll]
    by_cases hlen : (sortedGroup tasks pid).length < 2
    · rw [if_pos hlen]
      exact ih st h1 h2
    · rw [if_neg hlen]
      exact ih _
        (genGroupAux_inv o g (sortedGroup tasks pid) _ st h1 h2).1
        (genGroupAux_inv o g (sortedGroup tasks pid) _ st h1 h2).2

theorem generate_keys_nodup (tasks : List Task) (o : Oracle) :
    ((generate tasks o).map depKey).Nodup :=
  (genAll_inv tasks o (groupKeys tasks).enum ([], []) (by simp) (by simp)).1

end DepGen

/-- C2: over any task list with distinct task ids, every record produced by
`DependencyGenerator.generate` points from a dependent task to a blocker
created no later; no record is a self-dependency; the
`(dependent_task_id, dependency_task_id)` pairs are pairwise distinct; and
the directed graph formed by all records is acyclic. -/
theorem claim_C2_dependency_invariants (tasks : List Task) (o : DepGen.Oracle)
    (hnd : (tasks.map Task.task_id).Nodup) :
    (∀ r ∈ DepGen.generate tasks o, ∃ td ∈ tasks, ∃ tb ∈ tasks,
        r.dependent_task_id = td.task_id ∧ r.dependency_task_id = tb.task_id ∧
        tb.created_at ≤ td.created_at) ∧
    (∀ r ∈ DepGen.generate tasks o, r.dependent_task_id ≠ r.dependency_task_id) ∧
    ((DepGen.generate tasks o).map DepGen.depKey).Nodup ∧
    (∀ a, ¬ Relation.TransGen
        (fun x y => (x, y) ∈ (DepGen.generate tasks o).map DepGen.depKey) a a) := by
  refine ⟨?_, ?_, DepGen.generate_keys_nodup tasks o, ?_⟩
  · intro r hr
    obtain ⟨pid, hpid, i, j, hij, hi, hdep, hblk, _, _⟩ := DepGen.generate_mem hr
    have hj : j < (DepGen.sortedGroup tasks pid).length := lt_trans hij hi
    have hdm : (DepGen.sortedGroup tasks pid).getD i junkTask ∈
        DepGen.sortedGroup tasks pid := by
      rw [List.getD_eq_getElem _ _ hi]
      exact List.getElem_mem hi
    have hbm : (DepGen.sortedGroup tasks pid).getD j junkTask ∈
        DepGen.sortedGroup tasks pid := by
      rw [List.getD_eq_getElem _ _ hj]
      exact List.getElem_mem hj
    exact ⟨_, (DepGen.mem_sortedGroup hdm).1, _, (DepGen.mem_sortedGroup hbm).1, hdep, hblk,
      pairwise_getD (DepGen.sortedGroup_pairwise tasks pid) hij hi junkTask⟩
  · intro r hr
    obtain ⟨pid, hpid, i, j, hij, hi, hdep, hblk, _, _⟩ := DepGen.generate_mem hr
    rw [hdep, hblk]
    have hB := DepGen.sortedGroup_ids_nodup tasks pid hnd
    have him : i < ((DepGen.sortedGroup tasks pid).map Task.task_id).length := by
      simpa using hi
    have hne := pairwise_getD (P := fun a b => a ≠ b) hB hij him junkTask.task_id
    rw [List.getD_map, List.getD_map] at hne
    exact hne.symm
  · apply acyclic_of_rank _ (fun x =>
      ((DepGen.groupKeys tasks).flatMap
        (fun q => (DepGen.sortedGroup tasks q).map Task.task_id)).indexOf x)
    intro e he
    obtain ⟨r, hr, rfl⟩ := List.mem_map.1 he
    obtain ⟨pid, hpid, i, j, hij, hi, hdep, hblk, _, _⟩ := DepGen.generate_mem hr
    simp only [DepGen.depKey]
    rw [hdep, hblk]
    exact DepGen.rank_lt_of_positions tasks hnd pid hpid i j hij hi

/-- Closed instantiation of the C2 theorem on a two-task project. -/
theorem claim_C2_dependency_invariants_witness :
    (([wTaskA, wTaskB].map Task.task_id).Nodup) ∧
    ((∀ r ∈ DepGen.generate [wTaskA, wTaskB] wDepOracle, ∃ td ∈ [wTaskA, wTaskB],
        ∃ tb ∈ [wTaskA, wTaskB],
        r.dependent_task_id = td.task_id ∧ r.dependency_task_id = tb.task_id ∧
        tb.created_at ≤ td.created_at) ∧
      (∀ r ∈ DepGen.generate [wTaskA, wTaskB] wDepOracle,
        r.dependent_task_id ≠ r.dependency_task_id) ∧
      ((DepGen.generate [wTaskA, wTaskB] wDepOracle).map DepGen.depKey).Nodup ∧
      (∀ a, ¬ Relation.TransGen
          (fun x y =>
            (x, y) ∈ (DepGen.generate [wTaskA, wTaskB] wDepOracle).map DepGen.depKey)
          a a)) :=
  ⟨by decide, claim_C2_dependency_invariants [wTaskA, wTaskB] wDepOracle (by decide)⟩

/-! ## Claim C4 -/

/-- C4 (amended): a `TaskDependency` record's `created_at` is 1-24 hours
after its dependent task's `created_at` — at or after the causal parent,
but with no clamp to `now`; a project's `created_at` is determined by
`start_date` alone, lying in `[start_date − 14 days + 08:00,
start_date + 17:00]` with no clamp against the team's or organisation's
`created_at` nor against `now` (see the counterexample). -/
theorem claim_C4_parent_timestamp_amended :
    (∀ (tasks : List Task) (o : DepGen.Oracle), ∀ r ∈ DepGen.generate tasks o,
      ∃ t ∈ tasks, t.created_at ≤ r.created_at ∧
        r.created_at ≤ t.created_at + 24 * 3600) ∧
    (∀ (start : Int) (rD rH : Nat),
      (start - 14) * 86400 + 8 * 3600 ≤ ProjectGen.sampleCreatedAt start rD rH ∧
      ProjectGen.sampleCreatedAt start rD rH ≤ start * 86400 + 17 * 3600) := by
  constructor
  · intro tasks o r hr
    obtain ⟨pid, hpid, i, j, hij, hi, hdep, hblk, hlo, hhi⟩ := DepGen.generate_mem hr
    have hdm : (DepGen.sortedGroup tasks pid).getD i junkTask ∈
        DepGen.sortedGroup tasks pid := by
      rw [List.getD_eq_getElem _ _ hi]
      exact List.getElem_mem hi
    exact ⟨_, (DepGen.mem_sortedGroup hdm).1, by omega, by omega⟩
  · intro start rD rH
    simp only [ProjectGen.sampleCreatedAt, replaceTime, dateOf]
    have h1 := le_randint 0 14 rD
    have h2 := randint_le 0 14 rD (by norm_num)
    have h3 := le_randint 8 17 rH
    have h4 := randint_le 8 17 rH (by norm_num)
    constructor <;> omega

/-- Closed instantiation of the C4 theorem: the single record of the
two-task run, and the project sampler at `start_date` day 20. -/
theorem claim_C4_parent_timestamp_amended_witness :
    (∃ t ∈ [wTaskA, wTaskB], t.created_at ≤ wDepRec.created_at ∧
        wDepRec.created_at ≤ t.created_at + 24 * 3600) ∧
    ((20 - 14) * 86400 + 8 * 3600 ≤ ProjectGen.sampleCreatedAt 20 14 0 ∧
      ProjectGen.sampleCreatedAt 20 14 0 ≤ 20 * 86400 + 17 * 3600) :=
  ⟨claim_C4_parent_timestamp_amended.1 [wTaskA, wTaskB] wDepOracle wDepRec (by decide),
    claim_C4_parent_timestamp_amended.2 20 14 0⟩

/-- C4 counterexample: organisation created at 0, team created at day 20
(1728000), `now` = day 30 at 12:00 (2635200), duration range 10-20 days.
`_sample_project_dates` picks `start_date` = day 20, and
`_sample_created_at` with the 14-days-before draw and the 08:00 hour draw
returns 547200 (day 6, 08:00) — 14 days before the team's creation,
violating `E.created_at >= P.created_at`.  The dependency record of the
two-task run is created after `now = 1000` although both tasks were
created before 1000, violating `E.created_at <= now`. -/
theorem claim_C4_counterexample :
    ProjectGen.sampleProjectDates 0 1728000 2635200 10 20 0 0 = (20, 30) ∧
    ProjectGen.sampleCreatedAt 20 14 0 = 547200 ∧ (547200 : Int) < 1728000 ∧
    (∃ r ∈ DepGen.generate [wTaskA, wTaskB] wDepOracle,
      wTaskA.created_at ≤ 1000 ∧ wTaskB.created_at ≤ 1000 ∧ r.created_at > 1000) := by
  decide


/-! ## Claim C8 -/

theorem sampleDistinct_map_nodup {α β : Type} [DecidableEq α] [DecidableEq β]
    (f : α → β) (l : List α) (n : Nat) (rs : List Nat) (d : α)
    (hl : (l.map f).Nodup) (hne : l ≠ []) :
    ((sampleDistinct l n rs d).map f).Nodup := by
  unfold sampleDistinct
  rw [List.map_map]
  have hlen : 0 < l.length := List.length_pos.2 hne
  have hidx : ∀ x ∈ ((rs.map (fun x => x % l.length)).dedup).take n, x < l.length := by
    intro x hx
    have hx' := (List.take_sublist _ _).subset hx
    rw [List.mem_dedup] at hx'
    obtain ⟨y, _, rfl⟩ := List.mem_map.1 hx'
    exact Nat.mod_lt y hlen
  have hnd : (((rs.map (fun x => x % l.length)).dedup).take n).Nodup :=
    (List.take_sublist _ _).nodup (List.nodup_dedup _)
  refine List.Nodup.map_on ?_ hnd
  intro x hx y hy he
  by_contra hxy
  rcases Nat.lt_or_ge x y with hlt | hge
  · exact pairwise_getD hl hlt (by simpa using hidx y hy) (f d)
      (by rw [List.getD_map, List.getD_map]; exact he)
  · have hlt : y < x := lt_of_le_of_ne hge (fun h => hxy h.symm)
    exact pairwise_getD hl hlt (by simpa using hidx x hx) (f d)
      (by rw [List.getD_map, List.getD_map]; exact he.symm)

theorem enum_map_snd_nodup {α β : Type} (l : List α) (g : α → β)
    (hg : (l.map g).Nodup) : (l.enum.map (fun p => g p.2)).Nodup := by
  rw [show (fun p : Nat × α => g p.2) = g ∘ Prod.snd from rfl, ← List.map_map,
    List.enum_map_snd]
  exact hg

theorem pairwise_of_map_nodup {α β : Type} (g : α → β) (L : List α)
    (h : (L.map g).Nodup) : L.Pairwise (fun a b => g a ≠ g b) :=
  List.pairwise_map.1 h

namespace TaskTagGen

theorem addUnseen_fold_inv (l : List Tag) :
    ∀ st : List Tag × List String, st.2 = st.1.map Tag.tag_id →
      (st.1.map Tag.tag_id).Nodup →
      ((l.foldl addUnseen st).2 = (l.foldl addUnseen st).1.map Tag.tag_id ∧
        ((l.foldl addUnseen st).1.map Tag.tag_id).Nodup) := by
  induction l with
  | nil => intro st h1 h2; exact ⟨h1, h2⟩
  | cons t ts ih =>
    intro st h1 h2
    rw [List.foldl_cons]
    by_cases hm : t.tag_id ∈ st.2
    · rw [show addUnseen st t = st by simp [addUnseen, hm]]
      exact ih st h1 h2
    · rw [show addUnseen st t = (st.1 ++ [t], st.2 ++ [t.tag_id]) by simp [addUnseen, hm]]
      refine ih _ ?_ ?_
      · simp [h1]
      · rw [List.map_append, List.nodup_append]
        refine ⟨h2, by simp, ?_⟩
        intro a ha hb
        simp only [List.map_cons, List.map_nil, List.mem_singleton] at hb
        subst hb
        exact hm (h1 ▸ ha)

theorem nameFold_inv (org_tags : List Tag) (names : List String) :
    ∀ st : List Tag × List String, st.2 = st.1.map Tag.tag_id →
      (st.1.map Tag.tag_id).Nodup →
      ((names.foldl (fun st tag_name =>
          (org_tags.filter (fun t => pyIn (lowerStr tag_name) (lowerStr t.name))).foldl
            addUnseen st) st).2 =
        (names.foldl (fun st tag_name =>
          (org_tags.filter (fun t => pyIn (lowerStr tag_name) (lowerStr t.name))).foldl
            addUnseen st) st).1.map Tag.tag_id ∧
        ((names.foldl (fun st tag_name =>
          (org_tags.filter (fun t => pyIn (lowerStr tag_name) (lowerStr t.name))).foldl
            addUnseen st) st).1.map Tag.tag_id).Nodup) := by
  induction names with
  | nil => intro st h1 h2; exact ⟨h1, h2⟩
  | cons nm rest ih =>
    intro st h1 h2
    rw [List.foldl_cons]
    have h := addUnseen_fold_inv
      (org_tags.filter (fun t => pyIn (lowerStr nm) (lowerStr t.name))) st h1 h2
    exact ih _ h.1 h.2

theorem kwFold_inv (org_tags : List Tag) (task_name_lower : String) :
    ∀ (kws : List (String × List String)) (st : List Tag × List String),
      st.2 = st.1.map Tag.tag_id → (st.1.map Tag.tag_id).Nodup →
      ((kws.foldl (fun st kw =>
          if pyIn kw.1 task_name_lower then
            kw.2.foldl (fun st tag_name =>
              (org_tags.filter (fun t => pyIn (lowerStr tag_name) (lowerStr t.name))).foldl
                addUnseen st) st
          else st) st).2 =
        (kws.foldl (fun st kw =>
          if pyIn kw.1 task_name_lower then
            kw.2.foldl (fun st tag_name =>
              (org_tags.filter (fun t => pyIn (lowerStr tag_name) (lowerStr t.name))).foldl
                addUnseen st) st
          else st) st).1.map Tag.tag_id ∧
        ((kws.foldl (fun st kw =>
          if pyIn kw.1 task_name_lower then
            kw.2.foldl (fun st tag_name =>
              (org_tags.filter (fun t => pyIn (lowerStr tag_name) (lowerStr t.name))).foldl
                addUnseen st) st
          else st) st).1.map Tag.tag_id).Nodup) := by
  intro kws
  induction kws with
  | nil => intro st h1 h2; exact ⟨h1, h2⟩
  | cons kw rest ih =>
    intro st h1 h2
    rw [List.foldl_cons]
    by_cases hkw : pyIn kw.1 task_name_lower
    · rw [if_pos hkw]
      have h := nameFold_inv org_tags kw.2 st h1 h2
      exact ih _ h.1 h.2
    · rw [if_neg hkw]
      exact ih st h1 h2

theorem getRelevantTags_ids_nodup (task : Task) (tags : List Tag) (orgId : String)
    (rS : List Nat) (hnd : (tags.map Tag.tag_id).Nodup) :
    ((getRelevantTags task tags orgId rS).map Tag.tag_id).Nodup := by
  simp only [getRelevantTags]
  by_cases hempty : tags.filter (fun t => t.organization_id == orgId) = []
  · rw [if_pos hempty]
    simp
  · rw [if_neg hempty]
    have horg : ((tags.filter (fun t => t.organization_id == orgId)).map Tag.tag_id).Nodup :=
      ((List.filter_sublist tags).map Tag.tag_id).nodup hnd
    have hst1 := fun st (h1 : (st : List Tag × List String).2 = st.1.map Tag.tag_id)
        (h2 : (st.1.map Tag.tag_id).Nodup) =>
      kwFold_inv (tags.filter (fun t => t.organization_id == orgId))
        (lowerStr task.name) kwTable st h1 h2
    by_cases hp : task.priority ≠ ""
    · rw [if_pos hp]
      have hbase := addUnseen_fold_inv
        ((tags.filter (fun t => t.organization_id == orgId)).filter
          (fun t => pyIn (lowerStr task.priority) (lowerStr t.name)))
        (([], []) : List Tag × List String) (by simp) (by simp)
      have hkw := hst1 _ hbase.1 hbase.2
      split_ifs with hfall
      · exact sampleDistinct_map_nodup Tag.tag_id _ _ _ junkTag horg hempty
      · exact hkw.2
    · rw [if_neg hp]
      have hkw := hst1 (([], []) : List Tag × List String) (by simp) (by simp)
      split_ifs with hfall
      · exact sampleDistinct_map_nodup Tag.tag_id _ _ _ junkTag horg hempty
      · exact hkw.2

end TaskTagGen

/-- C8: over task and tag lists with pairwise-distinct ids, the
`(task_id, tag_id)` pairs of all records produced by
`TaskTagGenerator.generate` are pairwise distinct across the whole
collection. -/
theorem claim_C8_task_tag_uniqueness (tasks : List Task) (tags : List Tag)
    (o : TaskTagGen.Oracle) (now : Int)
    (hndT : (tasks.map Task.task_id).Nodup) (hndG : (tags.map Tag.tag_id).Nodup) :
    ((TaskTagGen.generate tasks tags o now).map
      (fun r => (r.task_id, r.tag_id))).Nodup := by
  cases tags with
  | nil => simp [TaskTagGen.generate]
  | cons t0 trest =>
    simp only [TaskTagGen.generate]
    rw [List.map_flatMap, List.nodup_flatMap]
    constructor
    · intro kt _
      by_cases hs : ¬ o.shouldTag kt.1
      · rw [if_pos hs]
        simp
      · rw [if_neg hs]
        by_cases hrel : TaskTagGen.getRelevantTags kt.2 (t0 :: trest) t0.organization_id
            (o.sampleIdxs kt.1) = []
        · rw [if_pos hrel]
          simp
        · rw [if_neg hrel]
          rw [List.map_map]
          have hsel := sampleDistinct_map_nodup Tag.tag_id
            (TaskTagGen.getRelevantTags kt.2 (t0 :: trest) t0.organization_id
              (o.sampleIdxs kt.1))
            (min (1 + o.numTags kt.1 % 5)
              (TaskTagGen.getRelevantTags kt.2 (t0 :: trest) t0.organization_id
                (o.sampleIdxs kt.1)).length)
            (o.select kt.1) junkTag
            (TaskTagGen.getRelevantTags_ids_nodup kt.2 (t0 :: trest) t0.organization_id
              (o.sampleIdxs kt.1) hndG) hrel
          exact enum_map_snd_nodup _
            (fun tg : Tag => ((kt.2.task_id : String), tg.tag_id)) (by
              refine List.Nodup.map_on ?_ (List.Nodup.of_map Tag.tag_id hsel)
              intro x hx y hy he
              exact List.inj_on_of_nodup_map hsel hx hy (congrArg Prod.snd he))
    · have hpw : tasks.enum.Pairwise (fun a b => a.2.task_id ≠ b.2.task_id) :=
        pairwise_of_map_nodup _ _ (enum_map_snd_nodup tasks Task.task_id hndT)
      refine hpw.imp ?_
      intro a b hab
      intro x hxa hxb
      have hfst : ∀ (kt : Nat × Task),
          x ∈ (List.map (fun r => (r.task_id, r.tag_id))
            (if ¬ o.shouldTag kt.1 then []
             else if TaskTagGen.getRelevantTags kt.2 (t0 :: trest) t0.organization_id
                 (o.sampleIdxs kt.1) = [] then []
             else
               ((sampleDistinct
                  (TaskTagGen.getRelevantTags kt.2 (t0 :: trest) t0.organization_id
                    (o.sampleIdxs kt.1))
                  (min (1 + o.numTags kt.1 % 5)
                    (TaskTagGen.getRelevantTags kt.2 (t0 :: trest) t0.organization_id
                      (o.sampleIdxs kt.1)).length)
                  (o.select kt.1) junkTag).enum).map (fun mg =>
                    ({ task_tag_id := o.ttid kt.1 mg.1
                       task_id := kt.2.task_id
                       tag_id := mg.2.tag_id
                       created_at := TaskTagGen.sampleCreatedAt kt.2.created_at now
                         (o.rDays kt.1 mg.1) (o.rHours kt.1 mg.1) } : TaskTag)))) →
          x.1 = kt.2.task_id := by
        intro kt hx
        by_cases hs : ¬ o.shouldTag kt.1
        · rw [if_pos hs] at hx
          simp at hx
        · rw [if_neg hs] at hx
          by_cases hrel : TaskTagGen.getRelevantTags kt.2 (t0 :: trest) t0.organization_id
              (o.sampleIdxs kt.1) = []
          · rw [if_pos hrel] at hx
            simp at hx
          · rw [if_neg hrel] at hx
            rw [List.map_map, List.mem_map] at hx
            obtain ⟨mg, _, rfl⟩ := hx
            rfl
      exact hab ((hfst a hxa).symm.trans (hfst b hxb))

/-- Closed instantiation of the C8 theorem. -/
theorem claim_C8_task_tag_uniqueness_witness :
    ([wTaskA].map Task.task_id).Nodup ∧ ([wTag1, wTag2].map Tag.tag_id).Nodup ∧
    ((TaskTagGen.generate [wTaskA] [wTag1, wTag2] wTTOracle wNow).map
      (fun r => (r.task_id, r.tag_id))).Nodup :=
  ⟨by decide, by decide,
    claim_C8_task_tag_uniqueness [wTaskA] [wTag1, wTag2] wTTOracle wNow
      (by decide) (by decide)⟩

/-! ## Claim C9 -/

namespace TMGen

theorem countTeams_append_le (ms block : List TeamMembership) (uid tid : String)
    (hb : ∀ m ∈ block, m.team_id = tid) :
    countTeams (ms ++ block) uid ≤ countTeams ms uid + 1 := by
  unfold countTeams
  rw [List.filter_append, List.map_append]
  rw [← List.card_toFinset, ← List.card_toFinset, List.toFinset_append]
  refine le_trans (Finset.card_union_le _ _) ?_
  have hsub : ((block.filter (fun m => m.user_id == uid)).map
      (fun m => m.team_id)).toFinset ⊆ {tid} := by
    intro x hx
    rw [List.mem_toFinset] at hx
    obtain ⟨m, hm, rfl⟩ := List.mem_map.1 hx
    rw [Finset.mem_singleton]
    exact hb m (List.mem_of_mem_filter hm)
  have := Finset.card_le_card hsub
  simp only [Finset.card_singleton] at this
  omega

theorem countTeams_append_eq (ms block : List TeamMembership) (uid : String)
    (hb : ∀ m ∈ block, m.user_id ≠ uid) :
    countTeams (ms ++ block) uid = countTeams ms uid := by
  unfold countTeams
  rw [List.filter_append]
  rw [show block.filter (fun m => m.user_id == uid) = [] from
    List.filter_eq_nil_iff.2 (fun m hm => by simpa using hb m hm)]
  rw [List.append_nil]

theorem run_flag_mono (users : List User) (o : Oracle) (sizeLo sizeHi now : Int) :
    ∀ (ts : List (Nat × Team)) (ms : List TeamMembership) (fb : Bool),
      (run users o sizeLo sizeHi now ts ms fb).2 = false → fb = false := by
  intro ts
  induction ts with
  | nil => intro ms fb h; exact h
  | cons gp rest ih =>
    obtain ⟨k, team⟩ := gp
    intro ms fb h
    simp only [run] at h
    have := ih _ _ h
    exact (Bool.or_eq_false_iff.1 this).1

theorem cap_after_block (ms block : List TeamMembership) (tid : String)
    (hblock_tid : ∀ m ∈ block, m.team_id = tid)
    (hblock_cnt : ∀ m ∈ block, countTeams ms m.user_id < 4)
    (hcap : ∀ uid, countTeams ms uid ≤ 4) :
    ∀ uid, countTeams (ms ++ block) uid ≤ 4 := by
  intro uid
  by_cases hmem : ∀ m ∈ block, m.user_id ≠ uid
  · rw [countTeams_append_eq ms block uid hmem]
    exact hcap uid
  · push_neg at hmem
    obtain ⟨m, hm, rfl⟩ := hmem
    have hlt := hblock_cnt m hm
    have hle := countTeams_append_le ms block m.user_id tid hblock_tid
    omega

theorem run_cap (users : List User) (o : Oracle) (sizeLo sizeHi now : Int) :
    ∀ (ts : List (Nat × Team)) (ms : List TeamMembership) (fb : Bool),
      (∀ uid, countTeams ms uid ≤ 4) →
      (run users o sizeLo sizeHi now ts ms fb).2 = false →
      ∀ uid, countTeams (run users o sizeLo sizeHi now ts ms fb).1 uid ≤ 4 := by
  intro ts
  induction ts with
  | nil => intro ms fb h _ uid; exact h uid
  | cons gp rest ih =>
    obtain ⟨k, team⟩ := gp
    intro ms fb hcap hflag uid
    simp only [run] at hflag ⊢
    have hfbfalse : (fb || decide ((if users.filter (fun u => u.department == team.team_type) = []
          then users else users.filter (fun u => u.department == team.team_type)).filter
          (fun u => countTeams ms u.user_id < 4) = [])) = false :=
      run_flag_mono users o sizeLo sizeHi now rest _ _ hflag
    have havail : (if users.filter (fun u => u.department == team.team_type) = []
        then users else users.filter (fun u => u.department == team.team_type)).filter
        (fun u => countTeams ms u.user_id < 4) ≠ [] :=
      of_decide_eq_false (Bool.or_eq_false_iff.1 hfbfalse).2
    refine ih _ _ ?_ hflag uid
    rw [if_neg havail]
    refine cap_after_block ms _ team.team_id ?_ ?_ hcap
    · intro m hm
      obtain ⟨iu, _, rfl⟩ := List.mem_map.1 hm
      rfl
    · intro m hm
      obtain ⟨iu, hiu, rfl⟩ := List.mem_map.1 hm
      have h2 := List.mem_enum (i := iu.1) (x := iu.2) hiu
      have hmem2 := List.getElem_mem h2.1
      rw [← h2.2] at hmem2
      have h3 := (sortByLe_perm _ _).mem_iff.1 ((List.take_sublist _ _).subset hmem2)
      have h4 := (List.mem_filter.1 h3).2
      simpa using h4

theorem run_filter_nomatch (users : List User) (o : Oracle) (sizeLo sizeHi now : Int) :
    ∀ (ts : List (Nat × Team)) (ms : List TeamMembership) (fb : Bool) (tid : String),
      (∀ gp ∈ ts, gp.2.team_id ≠ tid) →
      (run users o sizeLo sizeHi now ts ms fb).1.filter (fun m => m.team_id == tid) =
        ms.filter (fun m => m.team_id == tid) := by
  intro ts
  induction ts with
  | nil => intro ms fb tid _; rfl
  | cons gp rest ih =>
    obtain ⟨k, team⟩ := gp
    intro ms fb tid hne
    simp only [run]
    rw [ih _ _ tid (fun gp hgp => hne gp (List.mem_cons_of_mem _ hgp))]
    rw [List.filter_append]
    have hblk : ∀ sel : List (Nat × User), (List.filter (fun m => m.team_id == tid)
        (sel.map (fun iu =>
          ({ membership_id := o.mid k iu.1
             team_id := team.team_id
             user_id := iu.2.user_id
             role := if iu.1 = 0 then "admin" else "member"
             joined_at := sampleJoinedAt iu.2.created_at team.created_at now
               (o.rDelay k iu.1) (o.rHour k iu.1) } : TeamMembership)))) = [] := by
      intro sel
      refine List.filter_eq_nil_iff.2 ?_
      intro m hm
      obtain ⟨iu, _, rfl⟩ := List.mem_map.1 hm
      simpa using hne (k, team) (List.mem_cons_self _ _)
    rw [hblk, List.append_nil]

theorem block_pattern (o : Oracle) (k : Nat) (team : Team) (now : Int)
    (sel : List User) :
    (∀ m, (((sel.enum.map (fun iu =>
        ({ membership_id := o.mid k iu.1
           team_id := team.team_id
           user_id := iu.2.user_id
           role := if iu.1 = 0 then "admin" else "member"
           joined_at := sampleJoinedAt iu.2.created_at team.created_at now
             (o.rDelay k iu.1) (o.rHour k iu.1) } : TeamMembership))).filter
        (fun m => m.team_id == team.team_id)).head?) = some m →
      m.role = "admin") ∧
    (∀ m ∈ ((sel.enum.map (fun iu =>
        ({ membership_id := o.mid k iu.1
           team_id := team.team_id
           user_id := iu.2.user_id
           role := if iu.1 = 0 then "admin" else "member"
           joined_at := sampleJoinedAt iu.2.created_at team.created_at now
             (o.rDelay k iu.1) (o.rHour k iu.1) } : TeamMembership))).filter
        (fun m => m.team_id == team.team_id)).tail,
      m.role = "member") := by
  rw [List.filter_eq_self.2 (fun m hm => by
    obtain ⟨iu, _, rfl⟩ := List.mem_map.1 hm
    simp)]
  cases sel with
  | nil =>
    constructor
    · intro m hm
      simp at hm
    · intro m hm
      simp at hm
  | cons x xs =>
    rw [List.enum_cons, List.map_cons]
    constructor
    · intro m hm
      rw [List.head?_cons, Option.some_inj] at hm
      subst hm
      rfl
    · intro m hm
      rw [List.tail_cons] at hm
      obtain ⟨iu, hiu, rfl⟩ := List.mem_map.1 hm
      have h1 := (List.mem_enumFrom hiu).1
      show (if iu.1 = 0 then "admin" else "member") = "member"
      rw [if_neg (by omega)]

theorem run_team_roles (users : List User) (o : Oracle) (sizeLo sizeHi now : Int) :
    ∀ (ts : List (Nat × Team)) (ms : List TeamMembership) (fb : Bool) (tid : String),
      ms.filter (fun m => m.team_id == tid) = [] →
      (ts.map (fun gp => gp.2.team_id)).Nodup →
      (∀ m, ((run users o sizeLo sizeHi now ts ms fb).1.filter
          (fun m => m.team_id == tid)).head? = some m → m.role = "admin") ∧
      (∀ m ∈ ((run users o sizeLo sizeHi now ts ms fb).1.filter
          (fun m => m.team_id == tid)).tail, m.role = "member") := by
  intro ts
  induction ts with
  | nil =>
    intro ms fb tid hms _
    constructor
    · intro m hm
      rw [show (run users o sizeLo sizeHi now [] ms fb).1 = ms from rfl, hms] at hm
      simp at hm
    · intro m hm
      rw [show (run users o sizeLo sizeHi now [] ms fb).1 = ms from rfl, hms] at hm
      simp at hm
  | cons gp rest ih =>
    obtain ⟨k, team⟩ := gp
    intro ms fb tid hms hnd
    rw [List.map_cons, List.nodup_cons] at hnd
    by_cases hmatch : team.team_id = tid
    · subst hmatch
      have hrest : ∀ gp ∈ rest, gp.2.team_id ≠ team.team_id := by
        intro gp hgp he
        exact hnd.1 (he ▸ List.mem_map_of_mem (fun gp => gp.2.team_id) hgp)
      simp only [run]
      rw [run_filter_nomatch users o sizeLo sizeHi now rest _ _ team.team_id hrest]
      rw [List.filter_append, hms, List.nil_append]
      exact block_pattern o k team now _
    · simp only [run]
      refine ih _ _ tid ?_ hnd.2
      rw [List.filter_append, hms, List.nil_append]
      refine List.filter_eq_nil_iff.2 ?_
      intro m hm
      obtain ⟨iu, _, rfl⟩ := List.mem_map.1 hm
      simpa using hmatch

end TMGen

/-- C9 (amended): within each team of a run of
`TeamMembershipGenerator.generate` (team ids distinct), the first
membership created for the team has role `admin` and all later ones have
role `member`; and whenever the cap-bypassing fallback
(`if not available_users`) never fired during the run — reported by the
returned flag — every user belongs to at most 4 distinct teams.  The cap
is not unconditional: the fallback assigns beyond it (see the
counterexample). -/
theorem claim_C9_membership_amended (teams : List Team) (users : List User)
    (o : TMGen.Oracle) (sizeLo sizeHi now : Int)
    (hnd : (teams.map Team.team_id).Nodup) :
    (∀ t ∈ teams,
      (∀ m, ((TMGen.generate teams users o sizeLo sizeHi now).1.filter
          (fun m => m.team_id == t.team_id)).head? = some m → m.role = "admin") ∧
      (∀ m ∈ ((TMGen.generate teams users o sizeLo sizeHi now).1.filter
          (fun m => m.team_id == t.team_id)).tail, m.role = "member")) ∧
    ((TMGen.generate teams users o sizeLo sizeHi now).2 = false →
      ∀ uid, TMGen.countTeams (TMGen.generate teams users o sizeLo sizeHi now).1 uid ≤ 4) := by
  constructor
  · intro t _
    exact TMGen.run_team_roles users o sizeLo sizeHi now teams.enum [] false t.team_id rfl
      (enum_map_snd_nodup teams Team.team_id hnd)
  · intro hflag uid
    exact TMGen.run_cap users o sizeLo sizeHi now teams.enum [] false
      (fun uid => by simp [TMGen.countTeams]) hflag uid

/-- Closed instantiation of the C9 theorem on the five-team run. -/
theorem claim_C9_membership_amended_witness :
    (wTeams5.map Team.team_id).Nodup ∧
    ((∀ t ∈ wTeams5,
      (∀ m, ((TMGen.generate wTeams5 [wUser] wTMOracle 6 12 wNow).1.filter
          (fun m => m.team_id == t.team_id)).head? = some m → m.role = "admin") ∧
      (∀ m ∈ ((TMGen.generate wTeams5 [wUser] wTMOracle 6 12 wNow).1.filter
          (fun m => m.team_id == t.team_id)).tail, m.role = "member")) ∧
    ((TMGen.generate wTeams5 [wUser] wTMOracle 6 12 wNow).2 = false →
      ∀ uid, TMGen.countTeams (TMGen.generate wTeams5 [wUser] wTMOracle 6 12 wNow).1 uid ≤ 4)) :=
  ⟨by decide, claim_C9_membership_amended wTeams5 [wUser] wTMOracle 6 12 wNow (by decide)⟩

/-- C9 counterexample: five same-department teams and a single user.  For
the fifth team every candidate already holds 4 assignments, the fallback
fires (flag `true`), and the user ends up on 5 distinct teams, violating
the 4-team cap as originally claimed. -/
theorem claim_C9_counterexample :
    (TMGen.generate wTeams5 [wUser] wTMOracle 6 12 wNow).2 = true ∧
    TMGen.countTeams (TMGen.generate wTeams5 [wUser] wTMOracle 6 12 wNow).1 "u1" = 5 := by
  decide
